import Mathlib

/-!
# planet-exporter: darkstat collector task and network-dependency collector

A shallow embedding of

* `collector/task/darkstat/darkstat.go` (`task`, `init`, `InitTask`, `Get`, `Collect`,
  `toHostMetrics`), and
* `collector/collector_network_dependency.go` (`NewNetworkDependencyCollector`, `Update`),

followed by the properties proved about them.

Conventions of the embedding.

* A Go call either returns normally, returns a non-nil `error`, or panics: type `Go`.
* Go maps with string keys are association lists (`GoMap`); indexing an absent key gives the
  zero value of the element type, as in Go.
* Package-level state (`singleton`, `once`) is an explicit record that every operation takes and
  returns. The mutex only brackets single reads and writes of `hosts`, so a sequential model
  needs no lock state.
* Calls into the Go standard library (`net.ParseIP`, `net.IP.Equal`, `net.IP.String`,
  `strconv.ParseFloat`) are the fields of a record `Lib` that the definitions take as a
  parameter; the theorems hold for every such record. `float64` is the type parameter `F`:
  the code never computes with a bandwidth, it only parses and forwards it.
* What a call reads from outside the package (the scrape result, the inventory, the local
  address probe) is an explicit argument.
* A Go `string` is a sequence of bytes and need not be valid UTF-8. The strings `toHostMetrics`
  handles are Lean strings; the strings that reach `Update` from the packages `ebpf` and
  `socketstat` are byte sequences (`GoString`), and every label value `Update` passes on is a
  `GoString`, a Lean string being passed as its UTF-8 encoding. Valid UTF-8 byte sequences and
  Lean strings correspond one to one, so the two representations differ only on strings that
  are not valid UTF-8.
-/

set_option autoImplicit false

namespace PlanetExporter

/-- Outcome of a Go call: normal return, return with a non-nil error, or a run-time panic. -/
inductive Go (α : Type) where
  | ret (a : α)
  | err (e : String)
  | panic
  deriving DecidableEq, Repr

/-- Go map keyed by strings. The first binding of a key is the one the map holds. -/
abbrev GoMap (V : Type) := List (String × V)

namespace GoMap

/-- Two-result map read, Go `v, ok := m[k]`: `none` stands for `ok == false`. -/
def get? {V : Type} (m : GoMap V) (k : String) : Option V :=
  m.lookup k

/-- One-result map read, Go `m[k]`: the zero value when the key is absent. -/
def index {V : Type} (zero : V) (m : GoMap V) (k : String) : V :=
  match m.get? k with
  | some v => v
  | none => zero

end GoMap

/-- A Go `string`: any sequence of bytes. -/
abbrev GoString := List UInt8

/-- The bytes of a Lean string, its UTF-8 encoding. -/
def GoString.ofString (s : String) : GoString :=
  s.data.flatMap String.utf8EncodeChar

/-- What the code takes from the Go language and from the libraries it calls, over an IP type
`IP` and a float type `F`. -/
structure Lib (IP F : Type) where
  /-- The nil `net.IP`. -/
  nilIP : IP
  /-- Function `net.ParseIP`; it returns `nilIP` for text that is not an address. -/
  ParseIP : String → IP
  /-- Method `net.IP.Equal`. -/
  Equal : IP → IP → Bool
  /-- Method `net.IP.String`. -/
  IPString : IP → String
  /-- Function `strconv.ParseFloat(s, 64)`; `none` stands for a non-nil error. -/
  ParseFloat : String → Option F
  /-- The float64 constant `1`, the value of every upstream, downstream and process record. -/
  one : F
  /-- Function `utf8.ValidString`, which the Prometheus client applies to every label value. -/
  ValidString : GoString → Bool
  /-- The error `prometheus.NewDesc(fqName, help, variableLabels, nil)` records in the
  descriptor when it finds the metric name or a label name ill formed; `none` for no error. -/
  NewDescError : String → String → List String → Option String

namespace prom2json

/-- Type `prom2json.Metric`: the fields `toHostMetrics` reads. -/
structure Metric where
  Labels : GoMap String
  Value : String
  deriving DecidableEq, Repr

/-- An element of `Family.Metrics`, which Go types as `interface{}`: the library stores a
`Metric` for counter, gauge and untyped families, a `Summary` or a `Histogram` otherwise. -/
inductive Any where
  | Metric (m : Metric)
  | Summary
  | Histogram
  deriving DecidableEq, Repr

/-- Type `prom2json.Family`. -/
structure Family where
  Name : String
  Help : String
  Type_ : String
  Metrics : List Any
  deriving DecidableEq, Repr

end prom2json

namespace inventory

/-- Modelled from the spec: type `inventory.Host`, the value type of the map `inventory.Get()`
returns; package `inventory` is not embedded here. Its fields are those of HostIdentity
(ipAddress, hostgroup, domain); the code reads `Hostgroup` and `Domain`. -/
structure Host where
  Domain : String
  Hostgroup : String
  IPAddress : String
  deriving DecidableEq, Repr

/-- The zero value of `Host`. -/
def Host.zero : Host :=
  { Domain := "", Hostgroup := "", IPAddress := "" }

end inventory

namespace darkstat

/-- Type `darkstat.Metric`. -/
structure Metric (F : Type) where
  Direction : String
  LocalHostgroup : String
  RemoteHostgroup : String
  RemoteIPAddr : String
  LocalDomain : String
  RemoteDomain : String
  Bandwidth : F
  deriving DecidableEq, Repr

/-- The `switch metric.Labels["dir"]` of `toHostMetrics`, with `direction := ""` before it. -/
def direction (dir : String) : String :=
  match dir with
  | "out" => "ingress"
  | "in" => "egress"
  | _ => ""

/-- The `for _, m := range darkstatHostBytesTotal.Metrics` loop of `toHostMetrics`; `hosts` is
the slice built so far. -/
def toHostMetricsLoop {IP F : Type} (lib : Lib IP F) (inventoryHosts : GoMap inventory.Host)
    (localAddr : IP) (localHostgroup localDomain : String) :
    List prom2json.Any → List (Metric F) → Go (List (Metric F))
  | [], hosts => Go.ret hosts
  | prom2json.Any.Metric metric :: rest, hosts =>
    let ip := lib.ParseIP (GoMap.index "" metric.Labels "ip")
    if lib.Equal ip lib.nilIP || lib.Equal ip localAddr then
      toHostMetricsLoop lib inventoryHosts localAddr localHostgroup localDomain rest hosts
    else
      let inventoryHostInfo :=
        GoMap.index inventory.Host.zero inventoryHosts (GoMap.index "" metric.Labels "ip")
      match lib.ParseFloat metric.Value with
      | none =>
        toHostMetricsLoop lib inventoryHosts localAddr localHostgroup localDomain rest hosts
      | some bandwidth =>
        toHostMetricsLoop lib inventoryHosts localAddr localHostgroup localDomain rest
          (hosts ++ [{
            LocalHostgroup := localHostgroup
            RemoteHostgroup := inventoryHostInfo.Hostgroup
            RemoteIPAddr := GoMap.index "" metric.Labels "ip"
            LocalDomain := localDomain
            RemoteDomain := inventoryHostInfo.Domain
            Direction := direction (GoMap.index "" metric.Labels "dir")
            Bandwidth := bandwidth }])
  | _ :: _, _ => Go.panic

/-- One pass through the body of the loop of `toHostMetrics`, as a function of the row: `none`
when the body ends in `continue`, otherwise the `Metric` it appends. -/
def rowSample {IP F : Type} (lib : Lib IP F) (inventoryHosts : GoMap inventory.Host)
    (localAddr : IP) (localHostgroup localDomain : String) (metric : prom2json.Metric) :
    Option (Metric F) :=
  let ip := lib.ParseIP (GoMap.index "" metric.Labels "ip")
  if lib.Equal ip lib.nilIP || lib.Equal ip localAddr then none
  else
    let inventoryHostInfo :=
      GoMap.index inventory.Host.zero inventoryHosts (GoMap.index "" metric.Labels "ip")
    match lib.ParseFloat metric.Value with
    | none => none
    | some bandwidth =>
      some {
        LocalHostgroup := localHostgroup
        RemoteHostgroup := inventoryHostInfo.Hostgroup
        RemoteIPAddr := GoMap.index "" metric.Labels "ip"
        LocalDomain := localDomain
        RemoteDomain := inventoryHostInfo.Domain
        Direction := direction (GoMap.index "" metric.Labels "dir")
        Bandwidth := bandwidth }

/-- The variables `localHostgroup` and `localDomain` of `toHostMetrics` when the loop starts. -/
def localLabels {IP F : Type} (lib : Lib IP F) (inventoryHosts : GoMap inventory.Host)
    (localAddr : IP) : String × String :=
  match inventoryHosts.get? (lib.IPString localAddr) with
  | some localInventory => (localInventory.Hostgroup, localInventory.Domain)
  | none => (lib.IPString localAddr, lib.IPString localAddr)

/-- Function `toHostMetrics`. `inventoryHosts` is what `inventory.Get()` returns and
`DefaultLocalAddr` what `network.DefaultLocalAddr()` returns during the call. -/
def toHostMetrics {IP F : Type} (lib : Lib IP F) (inventoryHosts : GoMap inventory.Host)
    (DefaultLocalAddr : Except String IP) (darkstatHostBytesTotal : prom2json.Family) :
    Go (List (Metric F)) :=
  match DefaultLocalAddr with
  | Except.error e => Go.err e
  | Except.ok localAddr =>
    match inventoryHosts.get? (lib.IPString localAddr) with
    | some localInventory =>
      toHostMetricsLoop lib inventoryHosts localAddr localInventory.Hostgroup
        localInventory.Domain darkstatHostBytesTotal.Metrics []
    | none =>
      toHostMetricsLoop lib inventoryHosts localAddr (lib.IPString localAddr)
        (lib.IPString localAddr) darkstatHostBytesTotal.Metrics []

/-- Type `task`: the fields of the singleton that `Collect` and `Get` use. The field
`prometheusClient` is represented by the `Scrape` argument of `Collect`, and `mu` by the
sequential execution of the model. -/
structure task (F : Type) where
  enabled : Bool
  darkstatAddr : String
  hosts : List (Metric F)

/-- The package-level variables `once` and `singleton`; `once` is true when `once.Do` has run. -/
structure Package (F : Type) where
  once : Bool
  singleton : task F

/-- Function `init`: the package state when the program starts. -/
def init {F : Type} : Package F :=
  { once := false
    singleton := { enabled := false, darkstatAddr := "", hosts := [] } }

/-- Function `InitTask`: the body runs under `once.Do`, so only the first call has an effect. -/
def InitTask {F : Type} (pkg : Package F) (enabled : Bool) (darkstatAddr : String) :
    Package F :=
  if pkg.once then pkg
  else
    { once := true
      singleton := { pkg.singleton with enabled := enabled, darkstatAddr := darkstatAddr } }

/-- Function `Get`. -/
def Get {F : Type} (pkg : Package F) : List (Metric F) :=
  pkg.singleton.hosts

/-- What one call of `Collect` reads from outside the package: the answer of
`singleton.prometheusClient.Scrape(ctxCollect, addr)` for each address, the map returned by
`inventory.Get()`, and the answer of `network.DefaultLocalAddr()`. -/
structure World (IP : Type) where
  Scrape : String → Except String (List prom2json.Family)
  inventoryHosts : GoMap inventory.Host
  DefaultLocalAddr : Except String IP

/-- The `for _, v := range darkstatScrape` loop of `Collect`: the first family named
`host_bytes_total`, `none` when the pointer stays nil. -/
def findHostBytesTotal : List prom2json.Family → Option prom2json.Family
  | [] => none
  | v :: rest => if v.Name = "host_bytes_total" then some v else findHostBytesTotal rest

/-- Function `Collect`: the new package state and what the call returns. -/
def Collect {IP F : Type} (lib : Lib IP F) (w : World IP) (pkg : Package F) :
    Package F × Go Unit :=
  if !pkg.singleton.enabled then (pkg, Go.ret ())
  else if pkg.singleton.darkstatAddr = "" then (pkg, Go.err "Darkstat address is empty")
  else
    match w.Scrape pkg.singleton.darkstatAddr with
    | Except.error e => (pkg, Go.err e)
    | Except.ok darkstatScrape =>
      match findHostBytesTotal darkstatScrape with
      | none => (pkg, Go.err "Metric host_bytes_total doesn\x27t exist")
      | some darkstatHostBytesTotalMetric =>
        match toHostMetrics lib w.inventoryHosts w.DefaultLocalAddr
            darkstatHostBytesTotalMetric with
        | Go.err e => (pkg, Go.err e)
        | Go.panic => (pkg, Go.panic)
        | Go.ret hosts =>
          ({ pkg with singleton := { pkg.singleton with hosts := hosts } }, Go.ret ())

/-- The package state after a sequence of `Collect` calls, oldest first. -/
def collectAll {IP F : Type} (lib : Lib IP F) : List (World IP) → Package F → Package F
  | [], pkg => pkg
  | w :: ws, pkg => collectAll lib ws (Collect lib w pkg).1

end darkstat

namespace ebpf

/-- Modelled from the spec: type `ebpf.Metric`; package `ebpf` is not embedded here. Its
fields are those of TrafficSample, all of which `Update` reads. -/
structure Metric (F : Type) where
  Direction : GoString
  LocalHostgroup : GoString
  RemoteHostgroup : GoString
  RemoteIPAddr : GoString
  LocalDomain : GoString
  RemoteDomain : GoString
  Bandwidth : F
  deriving DecidableEq, Repr

end ebpf

namespace socketstat

/-- Modelled from the spec: type `socketstat.Process`; package `socketstat` is not embedded
here. Its fields are those of ListeningProcess (bind, processName, port), as `Update` reads
them. -/
structure Process where
  Bind : GoString
  Name : GoString
  Port : GoString
  deriving DecidableEq, Repr

/-- Modelled from the spec: type `socketstat.Connections`; package `socketstat` is not
embedded here. Its fields are those of DependencyEdge, as `Update` reads them. -/
structure Connections where
  LocalHostgroup : GoString
  RemoteHostgroup : GoString
  LocalAddress : GoString
  RemoteAddress : GoString
  Port : GoString
  Protocol : GoString
  ProcessName : GoString
  deriving DecidableEq, Repr

end socketstat

namespace prometheus

/-- Type `prometheus.Desc`: name, help text, the names of the variable labels, and the error
found while the descriptor was built (`none` for nil). -/
structure Desc where
  fqName : String
  help : String
  variableLabels : List String
  err : Option String
  deriving DecidableEq, Repr

/-- Function `prometheus.BuildFQName`. -/
def BuildFQName (ns subsystem name : String) : String :=
  if name = "" then ""
  else if ns ≠ "" ∧ subsystem ≠ "" then ns ++ "_" ++ subsystem ++ "_" ++ name
  else if ns ≠ "" then ns ++ "_" ++ name
  else if subsystem ≠ "" then subsystem ++ "_" ++ name
  else name

/-- Function `prometheus.NewDesc` with nil constant labels: the descriptor always carries the
three arguments, and the error of the name checks when one fails. -/
def NewDesc {IP F : Type} (lib : Lib IP F) (fqName help : String)
    (variableLabels : List String) : Desc :=
  { fqName := fqName, help := help, variableLabels := variableLabels,
    err := lib.NewDescError fqName help variableLabels }

/-- Type `prometheus.ValueType`. -/
inductive ValueType where
  | CounterValue
  | GaugeValue
  | UntypedValue
  deriving DecidableEq, Repr

/-- A constant metric, the record `Update` sends on the channel. -/
structure Metric (F : Type) where
  desc : Desc
  valType : ValueType
  val : F
  labelValues : List GoString
  deriving DecidableEq, Repr

/-- Function `prometheus.MustNewConstMetric`: `none` stands for the panic it raises when
`NewConstMetric` returns an error, which is when the descriptor carries an error, when the
number of label values differs from the number of variable labels of the descriptor, and
when a label value is not valid UTF-8, checked in this order. -/
def MustNewConstMetric {IP F : Type} (lib : Lib IP F) (desc : Desc) (valueType : ValueType)
    (value : F) (labelValues : List GoString) : Option (Metric F) :=
  match desc.err with
  | some _ => none
  | none =>
    if labelValues.length ≠ desc.variableLabels.length then none
    else if labelValues.all lib.ValidString then
      some { desc := desc, valType := valueType, val := value, labelValues := labelValues }
    else none

end prometheus

namespace collector

/-- Type `networkDependencyCollector`. -/
structure networkDependencyCollector where
  serverProcesses : prometheus.Desc
  upstream : prometheus.Desc
  downstream : prometheus.Desc
  traffic : prometheus.Desc
  ebpfTraffic : prometheus.Desc
  deriving DecidableEq, Repr

/-- Function `NewNetworkDependencyCollector`; its error result is always nil. The argument
`ns` is the package constant `namespace`, which another file of the package declares. -/
def NewNetworkDependencyCollector {IP F : Type} (lib : Lib IP F) (ns : String) :
    networkDependencyCollector :=
  { serverProcesses := prometheus.NewDesc lib
      (prometheus.BuildFQName ns "" "server_process")
      "Server process that are listening on network interfaces"
      ["local_hostgroup", "bind", "process_name", "port"]
    traffic := prometheus.NewDesc lib
      (prometheus.BuildFQName ns "" "traffic_bytes_total")
      "Total network traffic with peers"
      ["local_hostgroup", "direction", "remote_hostgroup", "remote_ip", "local_domain",
        "remote_domain"]
    ebpfTraffic := prometheus.NewDesc lib
      (prometheus.BuildFQName ns "" "ebpf_traffic_bytes_total")
      "Total network traffic with peers from ebpf_exporter"
      ["local_hostgroup", "direction", "remote_hostgroup", "remote_ip", "local_domain",
        "remote_domain"]
    upstream := prometheus.NewDesc lib
      (prometheus.BuildFQName ns "" "upstream")
      "Upstream dependency of this machine"
      ["local_hostgroup", "remote_hostgroup", "local_address", "remote_address", "port",
        "protocol", "process_name"]
    downstream := prometheus.NewDesc lib
      (prometheus.BuildFQName ns "" "downstream")
      "Downstream dependency of this machine"
      ["local_hostgroup", "remote_hostgroup", "local_address", "remote_address", "port",
        "protocol", "process_name"] }

/-- The state `Update` reads: the darkstat package, and the values the other packages hand out
through `ebpf.Get()`, `socketstat.Get()` and `inventory.GetLocalInventory()`. -/
structure System (F : Type) where
  darkstat : darkstat.Package F
  ebpf : List (ebpf.Metric F)
  serverProcesses : List socketstat.Process
  upstreams : List socketstat.Connections
  downstreams : List socketstat.Connections
  localInventory : inventory.Host

/-- One `for _, m := range xs` loop whose body is `ch <- mk(m)`: `ch` is the sequence of
records sent so far; the flag is false when `MustNewConstMetric` panicked, which ends the
sending. -/
def sendEach {α F : Type} (mk : α → Option (prometheus.Metric F)) :
    List α → List (prometheus.Metric F) → List (prometheus.Metric F) × Bool
  | [], ch => (ch, true)
  | m :: rest, ch =>
    match mk m with
    | none => (ch, false)
    | some r => sendEach mk rest (ch ++ [r])

/-- Method `Update`: the records on the channel after the call (those in `ch` were sent
before it) and what the call returns. -/
def Update {IP F : Type} (lib : Lib IP F) (c : networkDependencyCollector) (sys : System F)
    (ch : List (prometheus.Metric F)) : List (prometheus.Metric F) × Go Unit :=
  let traffic := darkstat.Get sys.darkstat
  let ebpf := sys.ebpf
  let serverProcesses := sys.serverProcesses
  let upstreams := sys.upstreams
  let downstreams := sys.downstreams
  let localInventory := sys.localInventory
  match sendEach (fun m => prometheus.MustNewConstMetric lib c.traffic
      prometheus.ValueType.GaugeValue m.Bandwidth
      [GoString.ofString m.LocalHostgroup, GoString.ofString m.Direction,
        GoString.ofString m.RemoteHostgroup, GoString.ofString m.RemoteIPAddr,
        GoString.ofString m.LocalDomain, GoString.ofString m.RemoteDomain]) traffic ch with
  | (ch, false) => (ch, Go.panic)
  | (ch, true) =>
  match sendEach (fun m => prometheus.MustNewConstMetric lib c.ebpfTraffic
      prometheus.ValueType.GaugeValue m.Bandwidth
      [m.LocalHostgroup, m.Direction, m.RemoteHostgroup, m.RemoteIPAddr, m.LocalDomain,
        m.RemoteDomain]) ebpf ch with
  | (ch, false) => (ch, Go.panic)
  | (ch, true) =>
  match sendEach (fun m => prometheus.MustNewConstMetric lib c.upstream
      prometheus.ValueType.GaugeValue lib.one
      [m.LocalHostgroup, m.RemoteHostgroup, m.LocalAddress, m.RemoteAddress, m.Port,
        m.Protocol, m.ProcessName]) upstreams ch with
  | (ch, false) => (ch, Go.panic)
  | (ch, true) =>
  match sendEach (fun m => prometheus.MustNewConstMetric lib c.downstream
      prometheus.ValueType.GaugeValue lib.one
      [m.LocalHostgroup, m.RemoteHostgroup, m.LocalAddress, m.RemoteAddress, m.Port,
        m.Protocol, m.ProcessName]) downstreams ch with
  | (ch, false) => (ch, Go.panic)
  | (ch, true) =>
  match sendEach (fun m => prometheus.MustNewConstMetric lib c.serverProcesses
      prometheus.ValueType.GaugeValue lib.one
      [GoString.ofString localInventory.Hostgroup, m.Bind, m.Name, m.Port])
      serverProcesses ch with
  | (ch, false) => (ch, Go.panic)
  | (ch, true) => (ch, Go.ret ())

/-- A call made on the running program. -/
inductive Call (IP : Type) where
  | Collect (w : darkstat.World IP)
  | Get
  | Update

/-- What a call hands back to its caller. -/
inductive Reply (F : Type) where
  | Collect (r : Go Unit)
  | Get (hosts : List (darkstat.Metric F))
  | Update (sent : List (prometheus.Metric F)) (r : Go Unit)

/-- One call on the system: the state after it and its reply. `Update` starts from an empty
channel. -/
def step {IP F : Type} (lib : Lib IP F) (c : networkDependencyCollector) (sys : System F) :
    Call IP → System F × Reply F
  | Call.Collect w =>
    ({ sys with darkstat := (darkstat.Collect lib w sys.darkstat).1 },
      Reply.Collect (darkstat.Collect lib w sys.darkstat).2)
  | Call.Get => (sys, Reply.Get (darkstat.Get sys.darkstat))
  | Call.Update => (sys, Reply.Update (Update lib c sys []).1 (Update lib c sys []).2)

/-- The state after a sequence of calls, oldest first. -/
def run {IP F : Type} (lib : Lib IP F) (c : networkDependencyCollector) :
    System F → List (Call IP) → System F
  | sys, [] => sys
  | sys, call :: calls => run lib c (step lib c sys call).1 calls

end collector

/-! ## A concrete library instance for the worked examples

`exampleLib` implements the IPv4 dotted-quad fragment of `net.ParseIP` and `net.IP.String`,
`net.IP.Equal` and `utf8.ValidString` in full, the unsigned-decimal fragment of
`strconv.ParseFloat`, and the name checks of `prometheus.NewDesc` on ASCII names. -/

/-- An exact decimal `mantissa * 10 ^ exponent`, standing for the float64 it denotes. -/
structure Dec where
  mantissa : Int
  exponent : Int
  deriving DecidableEq, Repr

namespace Example

/-- Value of a decimal digit character. -/
def digit? (c : Char) : Option Nat :=
  if 48 ≤ c.toNat ∧ c.toNat ≤ 57 then some (c.toNat - 48) else none

/-- Value of a non-empty run of decimal digits, most significant first. -/
def digits? : List Char → Nat → Option Nat
  | [], _ => none
  | [c], acc => (digit? c).map (fun d => acc * 10 + d)
  | c :: d :: rest, acc =>
    match digit? c with
    | none => none
    | some v => digits? (d :: rest) (acc * 10 + v)

/-- Split a character list at every occurrence of `sep`. -/
def splitAt (sep : Char) : List Char → List (List Char)
  | [] => [[]]
  | c :: rest =>
    if c = sep then [] :: splitAt sep rest
    else
      match splitAt sep rest with
      | [] => [[c]]
      | w :: ws => (c :: w) :: ws

/-- One dotted-quad field: one to three digits, no leading zero, at most 255. -/
def octet? (cs : List Char) : Option Nat :=
  if cs.length > 3 then none
  else if cs.length > 1 ∧ cs.head? = some '0' then none
  else
    match digits? cs 0 with
    | some n => if n ≤ 255 then some n else none
    | none => none

/-- The 12-byte prefix of an IPv4 address in 16-byte form. -/
def v4InV6 : List Nat := [0, 0, 0, 0, 0, 0, 0, 0, 0, 0, 255, 255]

/-- Dotted-quad text to the 16-byte form `net.ParseIP` returns; `[]` (nil) otherwise. -/
def ParseIP (s : String) : List Nat :=
  match (splitAt '.' s.data).map octet? with
  | [some a, some b, some c, some d] => v4InV6 ++ [a, b, c, d]
  | _ => []

/-- Method `net.IP.Equal` on byte lists. -/
def Equal (ip x : List Nat) : Bool :=
  if ip.length = x.length then ip == x
  else if ip.length = 4 ∧ x.length = 16 then x.take 12 == v4InV6 && ip == x.drop 12
  else if ip.length = 16 ∧ x.length = 4 then ip.take 12 == v4InV6 && ip.drop 12 == x
  else false

/-- Decimal text of a byte. -/
def byteString (n : Nat) : String :=
  String.mk (Nat.toDigits 10 n)

/-- Method `net.IP.String` on the nil address and on the two IPv4 forms; every other byte
list is outside the fragment and is given the text `?`. -/
def IPString (ip : List Nat) : String :=
  match ip with
  | [a, b, c, d] =>
    byteString a ++ "." ++ byteString b ++ "." ++ byteString c ++ "." ++ byteString d
  | [0, 0, 0, 0, 0, 0, 0, 0, 0, 0, 255, 255, a, b, c, d] =>
    byteString a ++ "." ++ byteString b ++ "." ++ byteString c ++ "." ++ byteString d
  | [] => "<nil>"
  | _ => "?"

/-- Unsigned decimal text, with or without a fraction part, to its exact value. -/
def ParseFloat (s : String) : Option Dec :=
  match splitAt '.' s.data with
  | [whole] => (digits? whole 0).map (fun n => { mantissa := n, exponent := 0 })
  | [whole, frac] =>
    (digits? (whole ++ frac) 0).bind (fun n =>
      if whole = [] ∨ frac = [] then none
      else some { mantissa := n, exponent := - (frac.length : Int) })
  | _ => none

/-- Whether `b` is a continuation byte of a UTF-8 sequence. -/
def continuation (b : UInt8) : Bool :=
  0x80 ≤ b && b ≤ 0xBF

/-- Whether the bytes are well-formed UTF-8 sequences one after the other; the first argument
bounds the number of sequences. The ranges are those of the table of package `utf8`: no
overlong form, no surrogate, nothing above U+10FFFF. -/
def validSequences : Nat → List UInt8 → Bool
  | _, [] => true
  | 0, _ :: _ => false
  | n + 1, b0 :: rest =>
    if b0 < 0x80 then validSequences n rest
    else if 0xC2 ≤ b0 && b0 ≤ 0xDF then
      match rest with
      | b1 :: r => continuation b1 && validSequences n r
      | _ => false
    else if b0 == 0xE0 then
      match rest with
      | b1 :: b2 :: r => (0xA0 ≤ b1 && b1 ≤ 0xBF) && continuation b2 && validSequences n r
      | _ => false
    else if (0xE1 ≤ b0 && b0 ≤ 0xEC) || b0 == 0xEE || b0 == 0xEF then
      match rest with
      | b1 :: b2 :: r => continuation b1 && continuation b2 && validSequences n r
      | _ => false
    else if b0 == 0xED then
      match rest with
      | b1 :: b2 :: r => (0x80 ≤ b1 && b1 ≤ 0x9F) && continuation b2 && validSequences n r
      | _ => false
    else if b0 == 0xF0 then
      match rest with
      | b1 :: b2 :: b3 :: r =>
        (0x90 ≤ b1 && b1 ≤ 0xBF) && continuation b2 && continuation b3 && validSequences n r
      | _ => false
    else if 0xF1 ≤ b0 && b0 ≤ 0xF3 then
      match rest with
      | b1 :: b2 :: b3 :: r =>
        continuation b1 && continuation b2 && continuation b3 && validSequences n r
      | _ => false
    else if b0 == 0xF4 then
      match rest with
      | b1 :: b2 :: b3 :: r =>
        (0x80 ≤ b1 && b1 ≤ 0x8F) && continuation b2 && continuation b3 && validSequences n r
      | _ => false
    else false

/-- Function `utf8.ValidString`. -/
def ValidString (s : GoString) : Bool :=
  validSequences s.length s

/-- An ASCII letter or the underscore. -/
def nameStart (c : Char) : Bool :=
  (65 ≤ c.toNat && c.toNat ≤ 90) || (97 ≤ c.toNat && c.toNat ≤ 122) || c.toNat == 95

/-- A character allowed after the first one of a name. -/
def nameRest (c : Char) : Bool :=
  nameStart c || (48 ≤ c.toNat && c.toNat ≤ 57)

/-- A metric name: letters, digits, underscores and colons, not starting with a digit. -/
def validMetricName (s : String) : Bool :=
  match s.data with
  | [] => false
  | c :: cs => (nameStart c || c.toNat == 58) && cs.all (fun d => nameRest d || d.toNat == 58)

/-- A label name: letters, digits and underscores, not starting with a digit and not starting
with two underscores, which are reserved. -/
def validLabelName (s : String) : Bool :=
  match s.data with
  | [] => false
  | [c] => nameStart c
  | c :: d :: cs => nameStart c && nameRest d && cs.all nameRest
      && !(c.toNat == 95 && d.toNat == 95)

/-- The checks of `prometheus.NewDesc` without constant labels: the metric name, every
variable label name, and that no label name occurs twice. -/
def NewDescError (fqName _help : String) (variableLabels : List String) : Option String :=
  if !validMetricName fqName then some (fqName ++ " is not a valid metric name")
  else
    match variableLabels.find? (fun l => !validLabelName l) with
    | some l => some (l ++ " is not a valid label name for metric " ++ fqName)
    | none =>
      if variableLabels.eraseDups.length ≠ variableLabels.length then
        some ("duplicate label names in constant and variable labels for metric " ++ fqName)
      else none

/-- The local address of the worked examples, in 4-byte form. -/
def localAddr : List Nat := [10, 0, 0, 1]

/-- The inventory of the worked examples: one known peer. -/
def inventoryHosts : GoMap inventory.Host :=
  [("10.0.0.5", { Domain := "svc.internal", Hostgroup := "web", IPAddress := "10.0.0.5" })]

/-- A scraped row with the labels `ip` and `dir`. -/
def row (ip dir value : String) : prom2json.Metric :=
  { Labels := [("ip", ip), ("dir", dir)], Value := value }

/-- A sample cached by an earlier refresh. -/
def cachedSample : darkstat.Metric Dec :=
  { Direction := "egress"
    LocalHostgroup := "10.0.0.1"
    RemoteHostgroup := "web"
    RemoteIPAddr := "10.0.0.5"
    LocalDomain := "10.0.0.1"
    RemoteDomain := "svc.internal"
    Bandwidth := { mantissa := 9, exponent := 0 } }

/-- An enabled task with address `http://127.0.0.1:51666/metrics` and one cached sample. -/
def enabledPackage : darkstat.Package Dec :=
  { once := true
    singleton :=
      { enabled := true, darkstatAddr := "http://127.0.0.1:51666/metrics",
        hosts := [cachedSample] } }

/-- A world whose scrape answers with a document that has no host_bytes_total family. -/
def worldWithoutFamily : darkstat.World (List Nat) :=
  { Scrape := fun _ =>
      Except.ok [{ Name := "go_goroutines", Help := "", Type_ := "GAUGE", Metrics := [] }]
    inventoryHosts := inventoryHosts
    DefaultLocalAddr := Except.ok localAddr }

/-- A dependency edge of the worked examples. -/
def edge (remoteHostgroup remoteAddress port processName : String) : socketstat.Connections :=
  { LocalHostgroup := GoString.ofString "db"
    RemoteHostgroup := GoString.ofString remoteHostgroup
    LocalAddress := GoString.ofString "10.0.0.1"
    RemoteAddress := GoString.ofString remoteAddress
    Port := GoString.ofString port
    Protocol := GoString.ofString "tcp"
    ProcessName := GoString.ofString processName }

/-- A system whose every string is valid UTF-8: one element in each of the five snapshots. -/
def validSystem : collector.System Dec :=
  { darkstat := enabledPackage
    ebpf := [{
      Direction := GoString.ofString "ingress"
      LocalHostgroup := GoString.ofString "db"
      RemoteHostgroup := GoString.ofString "web"
      RemoteIPAddr := GoString.ofString "10.0.0.5"
      LocalDomain := GoString.ofString "dc1"
      RemoteDomain := GoString.ofString "svc.internal"
      Bandwidth := { mantissa := 64, exponent := 0 } }]
    serverProcesses := [{
      Bind := GoString.ofString "0.0.0.0"
      Name := GoString.ofString "postgres"
      Port := GoString.ofString "5432" }]
    upstreams := [edge "web" "10.0.0.5" "443" "curl"]
    downstreams := [edge "web" "10.0.0.5" "5432" "postgres"]
    localInventory := { Domain := "dc1", Hostgroup := "db", IPAddress := "10.0.0.1" } }

/-- The system `validSystem` with three listening processes, the second of which has a name
that is not valid UTF-8: the two bytes FF FE. -/
def systemWithBadName : collector.System Dec :=
  { validSystem with
    serverProcesses := [
      { Bind := GoString.ofString "0.0.0.0"
        Name := GoString.ofString "postgres"
        Port := GoString.ofString "5432" },
      { Bind := GoString.ofString "127.0.0.1"
        Name := [0xFF, 0xFE]
        Port := GoString.ofString "8080" },
      { Bind := GoString.ofString "0.0.0.0"
        Name := GoString.ofString "sshd"
        Port := GoString.ofString "22" }] }

end Example

/-- The library instance used in the worked examples. -/
def exampleLib : Lib (List Nat) Dec :=
  { nilIP := []
    ParseIP := Example.ParseIP
    Equal := Example.Equal
    IPString := Example.IPString
    ParseFloat := Example.ParseFloat
    one := { mantissa := 1, exponent := 0 }
    ValidString := Example.ValidString
    NewDescError := Example.NewDescError }

/-! ## Definitions that follow the specification -/

namespace Spec

/-- A family of plain samples: what `prom2json` builds for a counter, gauge or untyped
family, every element of `Metrics` being a `prom2json.Metric`. -/
def plainFamily (name help typ : String) (rows : List prom2json.Metric) : prom2json.Family :=
  { Name := name, Help := help, Type_ := typ, Metrics := rows.map prom2json.Any.Metric }

/-- The row's `ip` label; the empty string when the label is missing. -/
def ipLabel (m : prom2json.Metric) : String :=
  GoMap.index "" m.Labels "ip"

/-- The row's `dir` label; the empty string when the label is missing. -/
def dirLabel (m : prom2json.Metric) : String :=
  GoMap.index "" m.Labels "dir"

/-- A row is kept when its `ip` label parses as an IP address, the address is not the local
one, and its value parses as a floating-point number. -/
def accepted {IP F : Type} (lib : Lib IP F) (localAddr : IP) (m : prom2json.Metric) : Bool :=
  !(lib.Equal (lib.ParseIP (ipLabel m)) lib.nilIP)
    && !(lib.Equal (lib.ParseIP (ipLabel m)) localAddr)
    && (lib.ParseFloat m.Value).isSome

/-- The logical direction of a packet-filter label: out is ingress, in is egress, anything
else is the empty string. -/
def invert (dir : String) : String :=
  if dir = "out" then "ingress" else if dir = "in" then "egress" else ""

/-- The sequence a `Collect` call stores, for a task configured with `enabled` and `addr`:
the call stores when the source is enabled, the address is set, the scrape succeeds, the
document has a family named host_bytes_total and `toHostMetrics` returns on the first such
family; what it stores is the sequence `toHostMetrics` returned. -/
def stored {IP F : Type} (lib : Lib IP F) (enabled : Bool) (addr : String)
    (w : darkstat.World IP) : Option (List (darkstat.Metric F)) :=
  if enabled = true ∧ addr ≠ "" then
    match w.Scrape addr with
    | Except.error _ => none
    | Except.ok doc =>
      match doc.find? (fun v => v.Name == "host_bytes_total") with
      | none => none
      | some fam =>
        match darkstat.toHostMetrics lib w.inventoryHosts w.DefaultLocalAddr fam with
        | Go.ret hosts => some hosts
        | _ => none
  else none

/-- What `Get` is to return after the calls `ws` (oldest first): the sequence of the most
recent call that stored one, the empty sequence when no call has. -/
def snapshot {IP F : Type} (lib : Lib IP F) (enabled : Bool) (addr : String)
    (ws : List (darkstat.World IP)) : List (darkstat.Metric F) :=
  match (ws.filterMap (stored lib enabled addr)).getLast? with
  | some hosts => hosts
  | none => []

/-- A record as its reader sees it: the family it belongs to, its labels as name and value
pairs, and its value. -/
structure Record (F : Type) where
  family : String
  labels : List (String × GoString)
  value : F

/-- The reader's view of a constant metric: every variable label of the descriptor paired with
the label value at the same position. -/
def view {F : Type} (r : prometheus.Metric F) : Record F :=
  { family := r.desc.fqName
    labels := r.desc.variableLabels.zip r.labelValues
    value := r.val }

/-- The traffic record of a darkstat sample. -/
def trafficRecord {F : Type} (ns : String) (m : darkstat.Metric F) : Record F :=
  { family := prometheus.BuildFQName ns "" "traffic_bytes_total"
    labels := [("local_hostgroup", GoString.ofString m.LocalHostgroup),
      ("direction", GoString.ofString m.Direction),
      ("remote_hostgroup", GoString.ofString m.RemoteHostgroup),
      ("remote_ip", GoString.ofString m.RemoteIPAddr),
      ("local_domain", GoString.ofString m.LocalDomain),
      ("remote_domain", GoString.ofString m.RemoteDomain)]
    value := m.Bandwidth }

/-- The eBPF traffic record of an eBPF sample. -/
def ebpfRecord {F : Type} (ns : String) (m : ebpf.Metric F) : Record F :=
  { family := prometheus.BuildFQName ns "" "ebpf_traffic_bytes_total"
    labels := [("local_hostgroup", m.LocalHostgroup), ("direction", m.Direction),
      ("remote_hostgroup", m.RemoteHostgroup), ("remote_ip", m.RemoteIPAddr),
      ("local_domain", m.LocalDomain), ("remote_domain", m.RemoteDomain)]
    value := m.Bandwidth }

/-- The record of a dependency edge in the family `short` (upstream or downstream). -/
def edgeRecord {F : Type} (one : F) (ns short : String) (m : socketstat.Connections) :
    Record F :=
  { family := prometheus.BuildFQName ns "" short
    labels := [("local_hostgroup", m.LocalHostgroup), ("remote_hostgroup", m.RemoteHostgroup),
      ("local_address", m.LocalAddress), ("remote_address", m.RemoteAddress),
      ("port", m.Port), ("protocol", m.Protocol), ("process_name", m.ProcessName)]
    value := one }

/-- The record of a listening process, labelled with the hostgroup of the local identity. -/
def processRecord {F : Type} (one : F) (ns : String) (localHostgroup : String)
    (m : socketstat.Process) : Record F :=
  { family := prometheus.BuildFQName ns "" "server_process"
    labels := [("local_hostgroup", GoString.ofString localHostgroup), ("bind", m.Bind),
      ("process_name", m.Name), ("port", m.Port)]
    value := one }

/-- Every string of the snapshots and of the local identity that becomes a label value. -/
def labelValues {F : Type} (sys : collector.System F) : List GoString :=
  (darkstat.Get sys.darkstat).flatMap (fun m =>
      [GoString.ofString m.LocalHostgroup, GoString.ofString m.Direction,
        GoString.ofString m.RemoteHostgroup, GoString.ofString m.RemoteIPAddr,
        GoString.ofString m.LocalDomain, GoString.ofString m.RemoteDomain])
    ++ sys.ebpf.flatMap (fun m =>
      [m.LocalHostgroup, m.Direction, m.RemoteHostgroup, m.RemoteIPAddr, m.LocalDomain,
        m.RemoteDomain])
    ++ sys.upstreams.flatMap (fun m =>
      [m.LocalHostgroup, m.RemoteHostgroup, m.LocalAddress, m.RemoteAddress, m.Port,
        m.Protocol, m.ProcessName])
    ++ sys.downstreams.flatMap (fun m =>
      [m.LocalHostgroup, m.RemoteHostgroup, m.LocalAddress, m.RemoteAddress, m.Port,
        m.Protocol, m.ProcessName])
    ++ sys.serverProcesses.flatMap (fun m =>
      [GoString.ofString sys.localInventory.Hostgroup, m.Bind, m.Name, m.Port])

/-- The five descriptors of the collector carry no error. -/
abbrev descriptorsValid (c : collector.networkDependencyCollector) : Prop :=
  c.traffic.err = none ∧ c.ebpfTraffic.err = none ∧ c.upstream.err = none ∧
    c.downstream.err = none ∧ c.serverProcesses.err = none

/-- A sequence of read-only calls: `true` is a `Get`, `false` an `Update`. -/
def reads {IP : Type} (bs : List Bool) : List (collector.Call IP) :=
  bs.map (fun b => if b then collector.Call.Get else collector.Call.Update)

end Spec

end PlanetExporter


/-! ## Properties of `toHostMetrics` -/

namespace PlanetExporter

open darkstat

theorem direction_eq_invert (dir : String) : direction dir = Spec.invert dir := by
  unfold direction Spec.invert
  split
  · rfl
  · rfl
  · rename_i h1 h2
    rw [if_neg (fun h => h1 h), if_neg (fun h => h2 h)]

/-- On a list of plain samples the loop returns, having appended the sample of every row that
is not skipped, in row order. -/
theorem toHostMetricsLoop_plain {IP F : Type} (lib : Lib IP F)
    (inventoryHosts : GoMap inventory.Host) (localAddr : IP) (lh ld : String)
    (rows : List prom2json.Metric) (hosts : List (Metric F)) :
    toHostMetricsLoop lib inventoryHosts localAddr lh ld (rows.map prom2json.Any.Metric) hosts
      = Go.ret (hosts ++ rows.filterMap (rowSample lib inventoryHosts localAddr lh ld)) := by
  induction rows generalizing hosts with
  | nil => simp [toHostMetricsLoop]
  | cons m rest ih =>
    simp only [List.map_cons, toHostMetricsLoop, List.filterMap_cons, rowSample]
    split
    · simp [ih]
    · cases hv : lib.ParseFloat m.Value with
      | none => simp [ih]
      | some b => simp [ih]

/-- The loop returns only when every element of the family is a plain sample. -/
theorem toHostMetricsLoop_ret {IP F : Type} (lib : Lib IP F)
    (inventoryHosts : GoMap inventory.Host) (localAddr : IP) (lh ld : String)
    (elems : List prom2json.Any) (hosts out : List (Metric F))
    (h : toHostMetricsLoop lib inventoryHosts localAddr lh ld elems hosts = Go.ret out) :
    ∃ rows : List prom2json.Metric, elems = rows.map prom2json.Any.Metric := by
  induction elems generalizing hosts with
  | nil => exact ⟨[], rfl⟩
  | cons e rest ih =>
    cases e with
    | Metric m =>
      simp only [toHostMetricsLoop] at h
      split at h
      · obtain ⟨rows, hr⟩ := ih _ h
        exact ⟨m :: rows, by simp [hr]⟩
      · split at h
        · obtain ⟨rows, hr⟩ := ih _ h
          exact ⟨m :: rows, by simp [hr]⟩
        · obtain ⟨rows, hr⟩ := ih _ h
          exact ⟨m :: rows, by simp [hr]⟩
    | Summary => simp [toHostMetricsLoop] at h
    | Histogram => simp [toHostMetricsLoop] at h

/-- Function `toHostMetrics` as one call of the loop with the local labels. -/
theorem toHostMetrics_ok {IP F : Type} (lib : Lib IP F)
    (inventoryHosts : GoMap inventory.Host) (localAddr : IP) (fam : prom2json.Family) :
    toHostMetrics lib inventoryHosts (Except.ok localAddr) fam
      = toHostMetricsLoop lib inventoryHosts localAddr
          (localLabels lib inventoryHosts localAddr).1
          (localLabels lib inventoryHosts localAddr).2 fam.Metrics [] := by
  unfold toHostMetrics localLabels
  cases h : inventoryHosts.get? (lib.IPString localAddr) <;> simp [h]

/-- On a family of plain samples `toHostMetrics` returns the samples of the rows that are not
skipped, in row order. -/
theorem toHostMetrics_plain {IP F : Type} (lib : Lib IP F)
    (inventoryHosts : GoMap inventory.Host) (localAddr : IP) (name help typ : String)
    (rows : List prom2json.Metric) :
    toHostMetrics lib inventoryHosts (Except.ok localAddr) (Spec.plainFamily name help typ rows)
      = Go.ret (rows.filterMap (rowSample lib inventoryHosts localAddr
          (localLabels lib inventoryHosts localAddr).1
          (localLabels lib inventoryHosts localAddr).2)) := by
  rw [toHostMetrics_ok]
  simp [Spec.plainFamily, toHostMetricsLoop_plain]

/-- A row is given a sample exactly when it is accepted. -/
theorem rowSample_isSome {IP F : Type} (lib : Lib IP F)
    (inventoryHosts : GoMap inventory.Host) (localAddr : IP) (lh ld : String)
    (m : prom2json.Metric) :
    (rowSample lib inventoryHosts localAddr lh ld m).isSome = Spec.accepted lib localAddr m := by
  unfold rowSample Spec.accepted Spec.ipLabel
  cases h1 : lib.Equal (lib.ParseIP (GoMap.index "" m.Labels "ip")) lib.nilIP <;>
    cases h2 : lib.Equal (lib.ParseIP (GoMap.index "" m.Labels "ip")) localAddr <;>
    cases h3 : lib.ParseFloat m.Value <;> simp [h1, h2, h3]

/-- The sample of a row that is not skipped, field by field. -/
theorem rowSample_accepted {IP F : Type} (lib : Lib IP F)
    (inventoryHosts : GoMap inventory.Host) (localAddr : IP) (lh ld : String)
    (m : prom2json.Metric) (b : F)
    (hparse : lib.Equal (lib.ParseIP (Spec.ipLabel m)) lib.nilIP = false)
    (hself : lib.Equal (lib.ParseIP (Spec.ipLabel m)) localAddr = false)
    (hval : lib.ParseFloat m.Value = some b) :
    rowSample lib inventoryHosts localAddr lh ld m = some {
      LocalHostgroup := lh
      RemoteHostgroup := (GoMap.index inventory.Host.zero inventoryHosts (Spec.ipLabel m)).Hostgroup
      RemoteIPAddr := Spec.ipLabel m
      LocalDomain := ld
      RemoteDomain := (GoMap.index inventory.Host.zero inventoryHosts (Spec.ipLabel m)).Domain
      Direction := Spec.invert (Spec.dirLabel m)
      Bandwidth := b } := by
  unfold Spec.ipLabel at hparse hself
  simp [rowSample, hparse, hself, hval, direction_eq_invert, Spec.ipLabel, Spec.dirLabel]

/-- A sample the row function gives carries the row's ip label and parsed value, and the
address of that label is neither nil nor the local address. -/
theorem rowSample_some {IP F : Type} (lib : Lib IP F)
    (inventoryHosts : GoMap inventory.Host) (localAddr : IP) (lh ld : String)
    (m : prom2json.Metric) (s : Metric F)
    (h : rowSample lib inventoryHosts localAddr lh ld m = some s) :
    s.RemoteIPAddr = Spec.ipLabel m ∧ lib.ParseFloat m.Value = some s.Bandwidth ∧
      lib.Equal (lib.ParseIP (Spec.ipLabel m)) lib.nilIP = false ∧
      lib.Equal (lib.ParseIP (Spec.ipLabel m)) localAddr = false := by
  unfold rowSample at h
  unfold Spec.ipLabel
  cases h1 : lib.Equal (lib.ParseIP (GoMap.index "" m.Labels "ip")) lib.nilIP <;>
    cases h2 : lib.Equal (lib.ParseIP (GoMap.index "" m.Labels "ip")) localAddr <;>
    cases h3 : lib.ParseFloat m.Value <;> simp [h1, h2, h3] at h
  subst h
  simp

/-- The samples of a family of plain rows around one accepted row. -/
theorem toHostMetrics_row {IP F : Type} (lib : Lib IP F)
    (inventoryHosts : GoMap inventory.Host) (localAddr : IP) (name help typ : String)
    (pre post : List prom2json.Metric) (m : prom2json.Metric) (s : Metric F)
    (h : rowSample lib inventoryHosts localAddr (localLabels lib inventoryHosts localAddr).1
      (localLabels lib inventoryHosts localAddr).2 m = some s) :
    ∃ before after : List (Metric F),
      toHostMetrics lib inventoryHosts (Except.ok localAddr)
        (Spec.plainFamily name help typ pre) = Go.ret before ∧
      toHostMetrics lib inventoryHosts (Except.ok localAddr)
        (Spec.plainFamily name help typ post) = Go.ret after ∧
      toHostMetrics lib inventoryHosts (Except.ok localAddr)
        (Spec.plainFamily name help typ (pre ++ m :: post)) = Go.ret (before ++ s :: after) := by
  refine ⟨_, _, toHostMetrics_plain _ _ _ _ _ _ pre, toHostMetrics_plain _ _ _ _ _ _ post, ?_⟩
  rw [toHostMetrics_plain]
  simp [List.filterMap_append, List.filterMap_cons, h]

/-- The accepted rows and the samples correspond one to one, in row order. -/
theorem filterMap_rowSample_forall₂ {IP F : Type} (lib : Lib IP F)
    (inventoryHosts : GoMap inventory.Host) (localAddr : IP) (lh ld : String)
    (rows : List prom2json.Metric) :
    List.Forall₂ (fun m s => rowSample lib inventoryHosts localAddr lh ld m = some s)
      (rows.filter (Spec.accepted lib localAddr))
      (rows.filterMap (rowSample lib inventoryHosts localAddr lh ld)) := by
  induction rows with
  | nil => simp
  | cons m rest ih =>
    have hs := rowSample_isSome lib inventoryHosts localAddr lh ld m
    cases hr : rowSample lib inventoryHosts localAddr lh ld m with
    | none =>
      rw [hr] at hs
      have hacc : Spec.accepted lib localAddr m = false := by simpa using hs.symm
      simpa [List.filter_cons, List.filterMap_cons, hr, hacc] using ih
    | some s =>
      rw [hr] at hs
      have hacc : Spec.accepted lib localAddr m = true := by simpa using hs.symm
      simp only [List.filter_cons, List.filterMap_cons, hr, hacc, if_true]
      exact List.Forall₂.cons hr ih

/-- Rows that are not accepted can be deleted without changing the samples. -/
theorem filterMap_rowSample_filter {IP F : Type} (lib : Lib IP F)
    (inventoryHosts : GoMap inventory.Host) (localAddr : IP) (lh ld : String)
    (keep : prom2json.Metric → Bool) (rows : List prom2json.Metric) :
    (rows.filter (fun m => Spec.accepted lib localAddr m || keep m)).filterMap
        (rowSample lib inventoryHosts localAddr lh ld)
      = rows.filterMap (rowSample lib inventoryHosts localAddr lh ld) := by
  induction rows with
  | nil => simp
  | cons m rest ih =>
    have hs := rowSample_isSome lib inventoryHosts localAddr lh ld m
    cases hr : rowSample lib inventoryHosts localAddr lh ld m with
    | none =>
      rw [hr] at hs
      have hacc : Spec.accepted lib localAddr m = false := by simpa using hs.symm
      cases hk : keep m <;> simp [List.filter_cons, List.filterMap_cons, hr, hacc, hk, ih]
    | some s =>
      rw [hr] at hs
      have hacc : Spec.accepted lib localAddr m = true := by simpa using hs.symm
      simp [List.filter_cons, List.filterMap_cons, hr, hacc, ih]

/-- C1: in a host_bytes_total family of plain rows, a row that `toHostMetrics` does not skip
(its ip parses, is not the local address, and its value parses) gives one sample, placed
between the samples of the rows before it and those of the rows after it, whose Direction is
"ingress" when the dir label is "out", "egress" when it is "in", and the empty string for any
other dir value and for a missing dir label; whatever the dir value, the row is not dropped. -/
theorem C1_direction_inverted {IP F : Type} (lib : Lib IP F)
    (inventoryHosts : GoMap inventory.Host) (localAddr : IP) (name help typ : String)
    (pre post : List prom2json.Metric) (m : prom2json.Metric) (b : F)
    (hparse : lib.Equal (lib.ParseIP (Spec.ipLabel m)) lib.nilIP = false)
    (hself : lib.Equal (lib.ParseIP (Spec.ipLabel m)) localAddr = false)
    (hval : lib.ParseFloat m.Value = some b) :
    ∃ (before after : List (Metric F)) (s : Metric F),
      toHostMetrics lib inventoryHosts (Except.ok localAddr)
        (Spec.plainFamily name help typ pre) = Go.ret before ∧
      toHostMetrics lib inventoryHosts (Except.ok localAddr)
        (Spec.plainFamily name help typ post) = Go.ret after ∧
      toHostMetrics lib inventoryHosts (Except.ok localAddr)
        (Spec.plainFamily name help typ (pre ++ m :: post)) = Go.ret (before ++ s :: after) ∧
      s.RemoteIPAddr = Spec.ipLabel m ∧
      (m.Labels.get? "dir" = some "out" → s.Direction = "ingress") ∧
      (m.Labels.get? "dir" = some "in" → s.Direction = "egress") ∧
      (∀ d, m.Labels.get? "dir" = some d → d ≠ "out" → d ≠ "in" → s.Direction = "") ∧
      (m.Labels.get? "dir" = none → s.Direction = "") := by
  have hrow := rowSample_accepted lib inventoryHosts localAddr
    (localLabels lib inventoryHosts localAddr).1 (localLabels lib inventoryHosts localAddr).2
    m b hparse hself hval
  obtain ⟨before, after, h1, h2, h3⟩ :=
    toHostMetrics_row lib inventoryHosts localAddr name help typ pre post m _ hrow
  refine ⟨before, after, _, h1, h2, h3, rfl, ?_, ?_, ?_, ?_⟩
  · intro h
    simp [Spec.dirLabel, GoMap.index, h, Spec.invert]
  · intro h
    simp [Spec.dirLabel, GoMap.index, h, Spec.invert]
  · intro d h ho hi
    simp [Spec.dirLabel, GoMap.index, h, Spec.invert, ho, hi]
  · intro h
    simp [Spec.dirLabel, GoMap.index, h, Spec.invert]

/-- C1, witness: the row ip=10.0.0.7, dir=sideways, value=7 between an "in" row and an "out"
row. -/
theorem C1_direction_inverted_witness :
    (exampleLib.Equal (exampleLib.ParseIP (Spec.ipLabel (Example.row "10.0.0.7" "sideways" "7")))
        exampleLib.nilIP = false ∧
      exampleLib.Equal (exampleLib.ParseIP (Spec.ipLabel (Example.row "10.0.0.7" "sideways" "7")))
        Example.localAddr = false ∧
      exampleLib.ParseFloat (Example.row "10.0.0.7" "sideways" "7").Value
        = some { mantissa := 7, exponent := 0 }) ∧
    ∃ (before after : List (Metric Dec)) (s : Metric Dec),
      toHostMetrics exampleLib Example.inventoryHosts (Except.ok Example.localAddr)
        (Spec.plainFamily "host_bytes_total" "" "COUNTER" [Example.row "10.0.0.5" "in" "3"])
        = Go.ret before ∧
      toHostMetrics exampleLib Example.inventoryHosts (Except.ok Example.localAddr)
        (Spec.plainFamily "host_bytes_total" "" "COUNTER" [Example.row "10.0.0.6" "out" "4"])
        = Go.ret after ∧
      toHostMetrics exampleLib Example.inventoryHosts (Except.ok Example.localAddr)
        (Spec.plainFamily "host_bytes_total" "" "COUNTER"
          ([Example.row "10.0.0.5" "in" "3"] ++ Example.row "10.0.0.7" "sideways" "7"
            :: [Example.row "10.0.0.6" "out" "4"]))
        = Go.ret (before ++ s :: after) ∧
      s.RemoteIPAddr = Spec.ipLabel (Example.row "10.0.0.7" "sideways" "7") ∧
      ((Example.row "10.0.0.7" "sideways" "7").Labels.get? "dir" = some "out" →
        s.Direction = "ingress") ∧
      ((Example.row "10.0.0.7" "sideways" "7").Labels.get? "dir" = some "in" →
        s.Direction = "egress") ∧
      (∀ d, (Example.row "10.0.0.7" "sideways" "7").Labels.get? "dir" = some d →
        d ≠ "out" → d ≠ "in" → s.Direction = "") ∧
      ((Example.row "10.0.0.7" "sideways" "7").Labels.get? "dir" = none → s.Direction = "") :=
  ⟨⟨by decide, by decide, by decide⟩,
    C1_direction_inverted exampleLib Example.inventoryHosts Example.localAddr
      "host_bytes_total" "" "COUNTER" [Example.row "10.0.0.5" "in" "3"]
      [Example.row "10.0.0.6" "out" "4"] (Example.row "10.0.0.7" "sideways" "7")
      { mantissa := 7, exponent := 0 } (by decide) (by decide) (by decide)⟩

/-- C2, the code at the failing input: the peer 10.0.0.9 is absent from the inventory, its row
gives exactly one sample, and that sample has the empty string, not "10.0.0.9", as
RemoteHostgroup and RemoteDomain. -/
theorem C2_unknown_peer_gets_empty_identity :
    GoMap.get? Example.inventoryHosts "10.0.0.9" = none ∧
    toHostMetrics exampleLib Example.inventoryHosts (Except.ok Example.localAddr)
        (Spec.plainFamily "host_bytes_total" "" "COUNTER" [Example.row "10.0.0.9" "in" "42"])
      = Go.ret [{
          Direction := "egress"
          LocalHostgroup := "10.0.0.1"
          RemoteHostgroup := ""
          RemoteIPAddr := "10.0.0.9"
          LocalDomain := "10.0.0.1"
          RemoteDomain := ""
          Bandwidth := { mantissa := 42, exponent := 0 } }] := by
  decide

/-- C3: no sample returned by `toHostMetrics` has a RemoteIPAddr that denotes the resolved
local address: the address it parses to is not nil and is not Equal to the local address, and
(the text of an address parsing back to that address or not at all) it is not the text of the
local address either. -/
theorem C3_no_sample_for_local_address {IP F : Type} (lib : Lib IP F)
    (inventoryHosts : GoMap inventory.Host) (localAddr : IP) (fam : prom2json.Family)
    (hosts : List (Metric F)) (s : Metric F)
    (hret : toHostMetrics lib inventoryHosts (Except.ok localAddr) fam = Go.ret hosts)
    (hs : s ∈ hosts) :
    lib.Equal (lib.ParseIP s.RemoteIPAddr) localAddr = false ∧
      lib.Equal (lib.ParseIP s.RemoteIPAddr) lib.nilIP = false ∧
      ((lib.Equal (lib.ParseIP (lib.IPString localAddr)) localAddr = true ∨
          lib.Equal (lib.ParseIP (lib.IPString localAddr)) lib.nilIP = true) →
        s.RemoteIPAddr ≠ lib.IPString localAddr) := by
  rw [toHostMetrics_ok] at hret
  obtain ⟨rows, hrows⟩ := toHostMetricsLoop_ret _ _ _ _ _ _ _ _ hret
  rw [hrows, toHostMetricsLoop_plain] at hret
  simp only [List.nil_append, Go.ret.injEq] at hret
  subst hret
  obtain ⟨m, _, hm⟩ := List.mem_filterMap.mp hs
  obtain ⟨hip, _, hnil, hloc⟩ := rowSample_some _ _ _ _ _ _ _ hm
  rw [hip]
  refine ⟨hloc, hnil, ?_⟩
  intro hround heq
  rw [heq] at hnil hloc
  rcases hround with h | h
  · rw [h] at hloc
    exact Bool.noConfusion hloc
  · rw [h] at hnil
    exact Bool.noConfusion hnil

/-- C3, witness: a family holding a row of the local address and a row of one peer; the text
of the local address parses back to it. -/
theorem C3_no_sample_for_local_address_witness :
    (toHostMetrics exampleLib Example.inventoryHosts (Except.ok Example.localAddr)
        (Spec.plainFamily "host_bytes_total" "" "COUNTER"
          [Example.row "10.0.0.1" "in" "5", Example.row "10.0.0.5" "out" "120.5"])
      = Go.ret [{
          Direction := "ingress"
          LocalHostgroup := "10.0.0.1"
          RemoteHostgroup := "web"
          RemoteIPAddr := "10.0.0.5"
          LocalDomain := "10.0.0.1"
          RemoteDomain := "svc.internal"
          Bandwidth := { mantissa := 1205, exponent := -1 } }]) ∧
    (exampleLib.Equal (exampleLib.ParseIP (exampleLib.IPString Example.localAddr))
          Example.localAddr = true ∨
      exampleLib.Equal (exampleLib.ParseIP (exampleLib.IPString Example.localAddr))
          exampleLib.nilIP = true) ∧
    exampleLib.Equal (exampleLib.ParseIP "10.0.0.5") Example.localAddr = false ∧
    exampleLib.Equal (exampleLib.ParseIP "10.0.0.5") exampleLib.nilIP = false ∧
    "10.0.0.5" ≠ exampleLib.IPString Example.localAddr :=
  have h := C3_no_sample_for_local_address exampleLib Example.inventoryHosts Example.localAddr
    (Spec.plainFamily "host_bytes_total" "" "COUNTER"
      [Example.row "10.0.0.1" "in" "5", Example.row "10.0.0.5" "out" "120.5"])
    [{
      Direction := "ingress"
      LocalHostgroup := "10.0.0.1"
      RemoteHostgroup := "web"
      RemoteIPAddr := "10.0.0.5"
      LocalDomain := "10.0.0.1"
      RemoteDomain := "svc.internal"
      Bandwidth := { mantissa := 1205, exponent := -1 } }]
    _ (by decide) (List.mem_singleton.mpr rfl)
  ⟨by decide, by decide, h.1, h.2.1, h.2.2 (by decide)⟩

/-- C7: in a family of plain rows, the sample of an accepted row has RemoteIPAddr equal to the
row's ip label, RemoteHostgroup and RemoteDomain equal to the inventory entry of that ip,
Bandwidth equal to the parsed row value, and LocalHostgroup and LocalDomain equal to the
inventory entry of the resolved local address when the inventory has one and to the text of the
local address otherwise. Scenario: the row ip=10.0.0.5, dir=out, value=120.5 with local
address 10.0.0.1 and inventory 10.0.0.5 ↦ (web, svc.internal) gives the single sample
(ingress, 10.0.0.1, web, 10.0.0.5, 10.0.0.1, svc.internal, 120.5). -/
theorem C7_sample_fields {IP F : Type} (lib : Lib IP F)
    (inventoryHosts : GoMap inventory.Host) (localAddr : IP) (name help typ : String)
    (pre post : List prom2json.Metric) (m : prom2json.Metric) (b : F)
    (hparse : lib.Equal (lib.ParseIP (Spec.ipLabel m)) lib.nilIP = false)
    (hself : lib.Equal (lib.ParseIP (Spec.ipLabel m)) localAddr = false)
    (hval : lib.ParseFloat m.Value = some b) :
    (∃ (before after : List (Metric F)) (s : Metric F),
      toHostMetrics lib inventoryHosts (Except.ok localAddr)
        (Spec.plainFamily name help typ pre) = Go.ret before ∧
      toHostMetrics lib inventoryHosts (Except.ok localAddr)
        (Spec.plainFamily name help typ post) = Go.ret after ∧
      toHostMetrics lib inventoryHosts (Except.ok localAddr)
        (Spec.plainFamily name help typ (pre ++ m :: post)) = Go.ret (before ++ s :: after) ∧
      s.RemoteIPAddr = Spec.ipLabel m ∧
      (∀ h, inventoryHosts.get? (Spec.ipLabel m) = some h →
        s.RemoteHostgroup = h.Hostgroup ∧ s.RemoteDomain = h.Domain) ∧
      s.Bandwidth = b ∧
      (∀ h, inventoryHosts.get? (lib.IPString localAddr) = some h →
        s.LocalHostgroup = h.Hostgroup ∧ s.LocalDomain = h.Domain) ∧
      (inventoryHosts.get? (lib.IPString localAddr) = none →
        s.LocalHostgroup = lib.IPString localAddr ∧ s.LocalDomain = lib.IPString localAddr)) ∧
    toHostMetrics exampleLib
        [("10.0.0.5", { Domain := "svc.internal", Hostgroup := "web", IPAddress := "10.0.0.5" })]
        (Except.ok [10, 0, 0, 1])
        (Spec.plainFamily "host_bytes_total" "" "COUNTER"
          [{ Labels := [("ip", "10.0.0.5"), ("dir", "out")], Value := "120.5" }])
      = Go.ret [{
          Direction := "ingress"
          LocalHostgroup := "10.0.0.1"
          RemoteHostgroup := "web"
          RemoteIPAddr := "10.0.0.5"
          LocalDomain := "10.0.0.1"
          RemoteDomain := "svc.internal"
          Bandwidth := { mantissa := 1205, exponent := -1 } }] := by
  refine ⟨?_, by decide⟩
  have hrow := rowSample_accepted lib inventoryHosts localAddr
    (localLabels lib inventoryHosts localAddr).1 (localLabels lib inventoryHosts localAddr).2
    m b hparse hself hval
  obtain ⟨before, after, h1, h2, h3⟩ :=
    toHostMetrics_row lib inventoryHosts localAddr name help typ pre post m _ hrow
  refine ⟨before, after, _, h1, h2, h3, rfl, ?_, rfl, ?_, ?_⟩
  · intro h hh
    simp [GoMap.index, hh]
  · intro h hh
    simp [localLabels, hh]
  · intro hh
    simp [localLabels, hh]

/-- C7, witness: the known peer 10.0.0.5 between two other rows, the local address being in
the inventory this time. -/
theorem C7_sample_fields_witness :
    (exampleLib.Equal (exampleLib.ParseIP (Spec.ipLabel (Example.row "10.0.0.5" "in" "2.25")))
        exampleLib.nilIP = false ∧
      exampleLib.Equal (exampleLib.ParseIP (Spec.ipLabel (Example.row "10.0.0.5" "in" "2.25")))
        Example.localAddr = false ∧
      exampleLib.ParseFloat (Example.row "10.0.0.5" "in" "2.25").Value
        = some { mantissa := 225, exponent := -2 }) ∧
    ((∃ (before after : List (Metric Dec)) (s : Metric Dec),
      toHostMetrics exampleLib
        (("10.0.0.1", { Domain := "dc1", Hostgroup := "db", IPAddress := "10.0.0.1" })
          :: Example.inventoryHosts) (Except.ok Example.localAddr)
        (Spec.plainFamily "host_bytes_total" "" "COUNTER" [Example.row "10.0.0.8" "out" "1"])
        = Go.ret before ∧
      toHostMetrics exampleLib
        (("10.0.0.1", { Domain := "dc1", Hostgroup := "db", IPAddress := "10.0.0.1" })
          :: Example.inventoryHosts) (Except.ok Example.localAddr)
        (Spec.plainFamily "host_bytes_total" "" "COUNTER" [Example.row "nonsense" "out" "1"])
        = Go.ret after ∧
      toHostMetrics exampleLib
        (("10.0.0.1", { Domain := "dc1", Hostgroup := "db", IPAddress := "10.0.0.1" })
          :: Example.inventoryHosts) (Except.ok Example.localAddr)
        (Spec.plainFamily "host_bytes_total" "" "COUNTER"
          ([Example.row "10.0.0.8" "out" "1"] ++ Example.row "10.0.0.5" "in" "2.25"
            :: [Example.row "nonsense" "out" "1"]))
        = Go.ret (before ++ s :: after) ∧
      s.RemoteIPAddr = Spec.ipLabel (Example.row "10.0.0.5" "in" "2.25") ∧
      (∀ h, GoMap.get? (("10.0.0.1",
            ({ Domain := "dc1", Hostgroup := "db", IPAddress := "10.0.0.1" } : inventory.Host))
          :: Example.inventoryHosts) (Spec.ipLabel (Example.row "10.0.0.5" "in" "2.25")) = some h →
        s.RemoteHostgroup = h.Hostgroup ∧ s.RemoteDomain = h.Domain) ∧
      s.Bandwidth = { mantissa := 225, exponent := -2 } ∧
      (∀ h, GoMap.get? (("10.0.0.1",
            ({ Domain := "dc1", Hostgroup := "db", IPAddress := "10.0.0.1" } : inventory.Host))
          :: Example.inventoryHosts) (exampleLib.IPString Example.localAddr) = some h →
        s.LocalHostgroup = h.Hostgroup ∧ s.LocalDomain = h.Domain) ∧
      (GoMap.get? (("10.0.0.1",
            ({ Domain := "dc1", Hostgroup := "db", IPAddress := "10.0.0.1" } : inventory.Host))
          :: Example.inventoryHosts) (exampleLib.IPString Example.localAddr) = none →
        s.LocalHostgroup = exampleLib.IPString Example.localAddr ∧
          s.LocalDomain = exampleLib.IPString Example.localAddr)) ∧
    toHostMetrics exampleLib
        [("10.0.0.5", { Domain := "svc.internal", Hostgroup := "web", IPAddress := "10.0.0.5" })]
        (Except.ok [10, 0, 0, 1])
        (Spec.plainFamily "host_bytes_total" "" "COUNTER"
          [{ Labels := [("ip", "10.0.0.5"), ("dir", "out")], Value := "120.5" }])
      = Go.ret [{
          Direction := "ingress"
          LocalHostgroup := "10.0.0.1"
          RemoteHostgroup := "web"
          RemoteIPAddr := "10.0.0.5"
          LocalDomain := "10.0.0.1"
          RemoteDomain := "svc.internal"
          Bandwidth := { mantissa := 1205, exponent := -1 } }]) :=
  ⟨⟨by decide, by decide, by decide⟩,
    C7_sample_fields exampleLib
      (("10.0.0.1", { Domain := "dc1", Hostgroup := "db", IPAddress := "10.0.0.1" })
        :: Example.inventoryHosts) Example.localAddr
      "host_bytes_total" "" "COUNTER" [Example.row "10.0.0.8" "out" "1"]
      [Example.row "nonsense" "out" "1"] (Example.row "10.0.0.5" "in" "2.25")
      { mantissa := 225, exponent := -2 } (by decide) (by decide) (by decide)⟩

/-- C10, the code at the failing input: with a successful local address probe, a family
whose one element is a histogram makes `toHostMetrics` panic at the type assertion, so the
call does not succeed and the row does not merely contribute nothing. -/
theorem C10_histogram_family_panics :
    toHostMetrics exampleLib Example.inventoryHosts (Except.ok Example.localAddr)
        { Name := "host_bytes_total", Help := "", Type_ := "HISTOGRAM",
          Metrics := [prom2json.Any.Histogram] }
      = Go.panic ∧
    ¬ ∃ hosts : List (Metric Dec),
      toHostMetrics exampleLib Example.inventoryHosts (Except.ok Example.localAddr)
          { Name := "host_bytes_total", Help := "", Type_ := "HISTOGRAM",
            Metrics := [prom2json.Any.Histogram] }
        = Go.ret hosts := by
  refine ⟨by decide, ?_⟩
  rintro ⟨hosts, h⟩
  have hp : toHostMetrics exampleLib Example.inventoryHosts (Except.ok Example.localAddr)
      { Name := "host_bytes_total", Help := "", Type_ := "HISTOGRAM",
        Metrics := [prom2json.Any.Histogram] } = (Go.panic : Go (List (Metric Dec))) := by
    decide
  rw [hp] at h
  exact Go.noConfusion h

/-- On every family of plain rows `toHostMetrics` succeeds whenever the local address probe
succeeds; its result corresponds one to one and in row order with exactly the accepted rows
(ip label parses, is not the local address, value parses), each sample carrying its row's ip
label and parsed value; every other row contributes nothing and does not abort the call, so
deleting any such rows from the input does not change the result, and the result is never
longer than the input. Families of plain rows are the only ones on which the call succeeds. -/
theorem toHostMetrics_accepted_rows_in_order {IP F : Type} (lib : Lib IP F)
    (inventoryHosts : GoMap inventory.Host) (localAddr : IP) (name help typ : String)
    (rows : List prom2json.Metric) (keep : prom2json.Metric → Bool) :
    (∀ fam : prom2json.Family,
      (∃ hosts : List (Metric F),
        toHostMetrics lib inventoryHosts (Except.ok localAddr) fam = Go.ret hosts) ↔
      ∃ plain : List prom2json.Metric, fam.Metrics = plain.map prom2json.Any.Metric) ∧
    ∃ hosts : List (Metric F),
      toHostMetrics lib inventoryHosts (Except.ok localAddr)
        (Spec.plainFamily name help typ rows) = Go.ret hosts ∧
      List.Forall₂
        (fun m s => s.RemoteIPAddr = Spec.ipLabel m ∧ lib.ParseFloat m.Value = some s.Bandwidth ∧
          rowSample lib inventoryHosts localAddr (localLabels lib inventoryHosts localAddr).1
            (localLabels lib inventoryHosts localAddr).2 m = some s)
        (rows.filter (Spec.accepted lib localAddr)) hosts ∧
      toHostMetrics lib inventoryHosts (Except.ok localAddr)
        (Spec.plainFamily name help typ
          (rows.filter (fun m => Spec.accepted lib localAddr m || keep m))) = Go.ret hosts ∧
      hosts.length = (rows.filter (Spec.accepted lib localAddr)).length ∧
      hosts.length ≤ rows.length := by
  have hf := filterMap_rowSample_forall₂ lib inventoryHosts localAddr
    (localLabels lib inventoryHosts localAddr).1 (localLabels lib inventoryHosts localAddr).2 rows
  constructor
  · intro fam
    constructor
    · rintro ⟨hosts, h⟩
      rw [toHostMetrics_ok] at h
      exact toHostMetricsLoop_ret _ _ _ _ _ _ _ _ h
    · rintro ⟨plain, h⟩
      rw [toHostMetrics_ok, h, toHostMetricsLoop_plain]
      exact ⟨_, rfl⟩
  refine ⟨_, toHostMetrics_plain _ _ _ _ _ _ rows, ?_, ?_, ?_, ?_⟩
  · refine hf.imp ?_
    intro m s h
    obtain ⟨h1, h2, _, _⟩ := rowSample_some _ _ _ _ _ _ _ h
    exact ⟨h1, h2, h⟩
  · rw [toHostMetrics_plain, filterMap_rowSample_filter]
  · exact hf.length_eq.symm
  · rw [← hf.length_eq]
    exact List.length_filter_le _ _

/-! ## Properties of `Collect` and `Get` -/

theorem findHostBytesTotal_eq_find? (doc : List prom2json.Family) :
    findHostBytesTotal doc = doc.find? (fun v => v.Name == "host_bytes_total") := by
  induction doc with
  | nil => rfl
  | cons v rest ih =>
    by_cases h : v.Name = "host_bytes_total"
    · simp [findHostBytesTotal, List.find?_cons, h]
    · simp [findHostBytesTotal, List.find?_cons, h, ih]

theorem findHostBytesTotal_none (doc : List prom2json.Family)
    (h : ∀ v ∈ doc, v.Name ≠ "host_bytes_total") : findHostBytesTotal doc = none := by
  induction doc with
  | nil => rfl
  | cons v rest ih =>
    have hv : v.Name ≠ "host_bytes_total" := h v (List.mem_cons_self _ _)
    simp only [findHostBytesTotal, hv, if_false]
    exact ih (fun u hu => h u (List.mem_cons_of_mem _ hu))

/-- The state after `Collect`: the cache is replaced by the stored sequence when the call
stores one, and the whole package state is as before otherwise. -/
theorem Collect_state {IP F : Type} (lib : Lib IP F) (w : World IP) (pkg : Package F) :
    (Collect lib w pkg).1
      = match Spec.stored lib pkg.singleton.enabled pkg.singleton.darkstatAddr w with
        | some hosts => { pkg with singleton := { pkg.singleton with hosts := hosts } }
        | none => pkg := by
  unfold Collect Spec.stored
  cases he : pkg.singleton.enabled
  · simp
  · by_cases ha : pkg.singleton.darkstatAddr = ""
    · simp [ha]
    · simp only [Bool.not_true, Bool.false_eq_true, if_false, ha, ne_eq, not_false_eq_true,
        and_self, if_true]
      cases hsc : w.Scrape pkg.singleton.darkstatAddr with
      | error e => simp
      | ok doc =>
        simp only [← findHostBytesTotal_eq_find?]
        cases hf : findHostBytesTotal doc with
        | none => simp
        | some fam =>
          simp only
          cases toHostMetrics lib w.inventoryHosts w.DefaultLocalAddr fam <;> simp

/-- The configuration of the task is not changed by `Collect`. -/
theorem Collect_config {IP F : Type} (lib : Lib IP F) (w : World IP) (pkg : Package F) :
    (Collect lib w pkg).1.singleton.enabled = pkg.singleton.enabled ∧
      (Collect lib w pkg).1.singleton.darkstatAddr = pkg.singleton.darkstatAddr := by
  rw [Collect_state]
  cases Spec.stored lib pkg.singleton.enabled pkg.singleton.darkstatAddr w <;> simp

/-- After a sequence of calls `Get` returns the last stored sequence, or what it returned
before the calls when none of them stored. -/
theorem Get_collectAll {IP F : Type} (lib : Lib IP F) (ws : List (World IP)) (pkg : Package F) :
    Get (collectAll lib ws pkg)
      = match (ws.filterMap
          (Spec.stored lib pkg.singleton.enabled pkg.singleton.darkstatAddr)).getLast? with
        | some hosts => hosts
        | none => Get pkg := by
  induction ws generalizing pkg with
  | nil => simp [collectAll]
  | cons w rest ih =>
    simp only [collectAll]
    rw [ih, (Collect_config lib w pkg).1, (Collect_config lib w pkg).2, List.filterMap_cons]
    cases hst : Spec.stored lib pkg.singleton.enabled pkg.singleton.darkstatAddr w with
    | none =>
      simp only
      rw [Collect_state, hst]
    | some hosts =>
      simp only
      rw [Collect_state, hst]
      cases hl : (List.filterMap
          (Spec.stored lib pkg.singleton.enabled pkg.singleton.darkstatAddr) rest).getLast? with
      | none =>
        have hnil := List.getLast?_eq_none_iff.mp hl
        simp [hnil, Get]
      | some last =>
        rw [List.getLast?_cons, hl]
        simp

/-- With the source disabled no call stores. -/
theorem stored_disabled {IP F : Type} (lib : Lib IP F) (addr : String) (w : World IP) :
    (Spec.stored lib false addr w : Option (List (Metric F))) = none := by
  simp [Spec.stored]

/-- With the source disabled no call of a sequence stores. -/
theorem filterMap_stored_disabled {IP F : Type} (lib : Lib IP F) (addr : String)
    (ws : List (World IP)) :
    ws.filterMap (Spec.stored lib false addr : World IP → Option (List (Metric F))) = [] := by
  induction ws with
  | nil => rfl
  | cons w rest ih => simp [List.filterMap_cons, stored_disabled, ih]

/-- C4: with the source enabled and any prior cache content, if the configured address is
empty, or the scrape returns an error, or the scraped document has no family named
host_bytes_total, then `Collect` returns an error and a following `Get` returns exactly the
sequence it returned before the call; the whole package state is as before. -/
theorem C4_failed_collect_keeps_cache {IP F : Type} (lib : Lib IP F) (w : World IP)
    (pkg : Package F) (henabled : pkg.singleton.enabled = true)
    (hfail : pkg.singleton.darkstatAddr = "" ∨
      (∃ e, w.Scrape pkg.singleton.darkstatAddr = Except.error e) ∨
      (∃ doc, w.Scrape pkg.singleton.darkstatAddr = Except.ok doc ∧
        ∀ v ∈ doc, v.Name ≠ "host_bytes_total")) :
    (∃ e, (Collect lib w pkg).2 = Go.err e) ∧
      Get (Collect lib w pkg).1 = Get pkg ∧
      (Collect lib w pkg).1 = pkg := by
  have key : (∃ e, (Collect lib w pkg).2 = Go.err e) ∧ (Collect lib w pkg).1 = pkg := by
    unfold Collect
    simp only [henabled, Bool.not_true, Bool.false_eq_true, if_false]
    by_cases ha : pkg.singleton.darkstatAddr = ""
    · simp [ha]
    · simp only [ha, if_false]
      rcases hfail with h | ⟨e, h⟩ | ⟨doc, h, hdoc⟩
      · exact absurd h ha
      · simp [h]
      · simp [h, findHostBytesTotal_none doc hdoc]
  exact ⟨key.1, by rw [key.2], key.2⟩

/-- C4, witness: an enabled task holding one cached sample, and a scrape whose document has
only the family go_goroutines. -/
theorem C4_failed_collect_keeps_cache_witness :
    (Example.enabledPackage.singleton.enabled = true ∧
      (Example.enabledPackage.singleton.darkstatAddr = "" ∨
        (∃ e, Example.worldWithoutFamily.Scrape Example.enabledPackage.singleton.darkstatAddr
          = Except.error e) ∨
        (∃ doc, Example.worldWithoutFamily.Scrape Example.enabledPackage.singleton.darkstatAddr
            = Except.ok doc ∧
          ∀ v ∈ doc, v.Name ≠ "host_bytes_total"))) ∧
    ((∃ e, (Collect exampleLib Example.worldWithoutFamily Example.enabledPackage).2 = Go.err e) ∧
      Get (Collect exampleLib Example.worldWithoutFamily Example.enabledPackage).1
        = Get Example.enabledPackage ∧
      (Collect exampleLib Example.worldWithoutFamily Example.enabledPackage).1
        = Example.enabledPackage) :=
  ⟨⟨rfl, Or.inr (Or.inr ⟨_, rfl, by decide⟩)⟩,
    C4_failed_collect_keeps_cache exampleLib Example.worldWithoutFamily Example.enabledPackage
      rfl (Or.inr (Or.inr ⟨_, rfl, by decide⟩))⟩

/-- C5: when the source is disabled, `Collect` returns no error whatever the address (the
empty one included), the scrape, the inventory and the cache content, and leaves the package
state as it was; so from the state at program start, with the source left disabled by
`InitTask` or `InitTask` not called at all, `Get` returns the empty sequence after any number
of `Collect` calls. -/
theorem C5_disabled_collect_is_noop {IP F : Type} (lib : Lib IP F) (w : World IP)
    (once : Bool) (addr : String) (hosts : List (Metric F)) (ws : List (World IP)) :
    Collect lib w
        { once := once, singleton := { enabled := false, darkstatAddr := addr, hosts := hosts } }
      = ({ once := once,
           singleton := { enabled := false, darkstatAddr := addr, hosts := hosts } },
          Go.ret ()) ∧
    Collect lib w
        { once := once, singleton := { enabled := false, darkstatAddr := "", hosts := hosts } }
      = ({ once := once,
           singleton := { enabled := false, darkstatAddr := "", hosts := hosts } },
          Go.ret ()) ∧
    Get (collectAll lib ws (InitTask (init : Package F) false addr)) = [] ∧
    Get (collectAll lib ws (init : Package F)) = [] := by
  refine ⟨by simp [Collect], by simp [Collect], ?_, ?_⟩
  · rw [Get_collectAll]
    have h := filterMap_stored_disabled (F := F) lib addr ws
    simp only [InitTask, init, Bool.false_eq_true, if_false, h, List.getLast?_nil, Get]
  · rw [Get_collectAll]
    have h := filterMap_stored_disabled (F := F) lib "" ws
    simp only [init, h, List.getLast?_nil, Get]

/-- C6: from the state at program start, configured by `InitTask` with any flag and address,
after any sequence of `Collect` calls `Get` returns the empty sequence when none of them has
stored a result, and otherwise exactly the sequence `toHostMetrics` computed in the most
recent call that stored one. In one step, from any state: a call that stores replaces the
whole cached sequence by the new one (nothing of the earlier one remains, also when the new
one is empty), and a call that does not store leaves `Get` unchanged. -/
theorem C6_get_returns_last_stored {IP F : Type} (lib : Lib IP F) (enabled : Bool)
    (addr : String) (ws : List (World IP)) (w : World IP) (pkg : Package F) :
    Get (collectAll lib ws (InitTask (init : Package F) enabled addr))
      = Spec.snapshot lib enabled addr ws ∧
    Get (Collect lib w pkg).1
      = (match Spec.stored lib pkg.singleton.enabled pkg.singleton.darkstatAddr w with
        | some hosts => hosts
        | none => Get pkg) := by
  constructor
  · rw [Get_collectAll]
    simp [InitTask, init, Spec.snapshot, Get]
  · rw [Collect_state]
    cases Spec.stored lib pkg.singleton.enabled pkg.singleton.darkstatAddr w <;> simp [Get]

/-! ## Properties of `Update` -/

open collector

/-- A sending loop over a descriptor without error, whose label values always match the
descriptor in number and are valid UTF-8, sends one record per element, in order. -/
theorem sendEach_const {α IP F : Type} (lib : Lib IP F) (desc : prometheus.Desc)
    (vt : prometheus.ValueType) (v : α → F) (lv : α → List GoString)
    (herr : desc.err = none)
    (harity : ∀ x, (lv x).length = desc.variableLabels.length) (xs : List α)
    (hvalid : ∀ x ∈ xs, ∀ t ∈ lv x, lib.ValidString t = true)
    (ch : List (prometheus.Metric F)) :
    sendEach (fun m => prometheus.MustNewConstMetric lib desc vt (v m) (lv m)) xs ch
      = (ch ++ xs.map (fun m =>
          { desc := desc, valType := vt, val := v m, labelValues := lv m }), true) := by
  induction xs generalizing ch with
  | nil => simp [sendEach]
  | cons x rest ih =>
    have hall : (lv x).all lib.ValidString = true :=
      List.all_eq_true.mpr (hvalid x (List.mem_cons_self _ _))
    have hx : prometheus.MustNewConstMetric lib desc vt (v x) (lv x)
        = some { desc := desc, valType := vt, val := v x, labelValues := lv x } := by
      simp [prometheus.MustNewConstMetric, herr, harity, hall]
    simp only [sendEach, hx]
    rw [ih (fun y hy => hvalid y (List.mem_cons_of_mem _ hy))]
    simp

/-- The records `Update` sends with the descriptors of `NewNetworkDependencyCollector`, when
these carry no error and every label value is valid UTF-8. -/
theorem Update_new {IP F : Type} (lib : Lib IP F) (ns : String) (sys : System F)
    (ch : List (prometheus.Metric F))
    (hdesc : Spec.descriptorsValid (NewNetworkDependencyCollector lib ns))
    (hvalid : ∀ t ∈ Spec.labelValues sys, lib.ValidString t = true) :
    Update lib (NewNetworkDependencyCollector lib ns) sys ch
      = (ch
          ++ (darkstat.Get sys.darkstat).map (fun m =>
            { desc := (NewNetworkDependencyCollector lib ns).traffic
              valType := prometheus.ValueType.GaugeValue
              val := m.Bandwidth
              labelValues := [GoString.ofString m.LocalHostgroup, GoString.ofString m.Direction,
                GoString.ofString m.RemoteHostgroup, GoString.ofString m.RemoteIPAddr,
                GoString.ofString m.LocalDomain, GoString.ofString m.RemoteDomain] })
          ++ sys.ebpf.map (fun m =>
            { desc := (NewNetworkDependencyCollector lib ns).ebpfTraffic
              valType := prometheus.ValueType.GaugeValue
              val := m.Bandwidth
              labelValues := [m.LocalHostgroup, m.Direction, m.RemoteHostgroup, m.RemoteIPAddr,
                m.LocalDomain, m.RemoteDomain] })
          ++ sys.upstreams.map (fun m =>
            { desc := (NewNetworkDependencyCollector lib ns).upstream
              valType := prometheus.ValueType.GaugeValue
              val := lib.one
              labelValues := [m.LocalHostgroup, m.RemoteHostgroup, m.LocalAddress,
                m.RemoteAddress, m.Port, m.Protocol, m.ProcessName] })
          ++ sys.downstreams.map (fun m =>
            { desc := (NewNetworkDependencyCollector lib ns).downstream
              valType := prometheus.ValueType.GaugeValue
              val := lib.one
              labelValues := [m.LocalHostgroup, m.RemoteHostgroup, m.LocalAddress,
                m.RemoteAddress, m.Port, m.Protocol, m.ProcessName] })
          ++ sys.serverProcesses.map (fun m =>
            { desc := (NewNetworkDependencyCollector lib ns).serverProcesses
              valType := prometheus.ValueType.GaugeValue
              val := lib.one
              labelValues := [GoString.ofString sys.localInventory.Hostgroup, m.Bind, m.Name,
                m.Port] }),
        Go.ret ()) := by
  obtain ⟨e1, e2, e3, e4, e5⟩ := hdesc
  have hT : ∀ m ∈ darkstat.Get sys.darkstat, ∀ t ∈
      [GoString.ofString m.LocalHostgroup, GoString.ofString m.Direction,
        GoString.ofString m.RemoteHostgroup, GoString.ofString m.RemoteIPAddr,
        GoString.ofString m.LocalDomain, GoString.ofString m.RemoteDomain],
      lib.ValidString t = true := by
    intro m hm t ht
    apply hvalid
    simp only [Spec.labelValues, List.mem_append, List.mem_flatMap]
    exact Or.inl (Or.inl (Or.inl (Or.inl ⟨m, hm, ht⟩)))
  have hE : ∀ m ∈ sys.ebpf, ∀ t ∈
      [m.LocalHostgroup, m.Direction, m.RemoteHostgroup, m.RemoteIPAddr, m.LocalDomain,
        m.RemoteDomain], lib.ValidString t = true := by
    intro m hm t ht
    apply hvalid
    simp only [Spec.labelValues, List.mem_append, List.mem_flatMap]
    exact Or.inl (Or.inl (Or.inl (Or.inr ⟨m, hm, ht⟩)))
  have hU : ∀ m ∈ sys.upstreams, ∀ t ∈
      [m.LocalHostgroup, m.RemoteHostgroup, m.LocalAddress, m.RemoteAddress, m.Port,
        m.Protocol, m.ProcessName], lib.ValidString t = true := by
    intro m hm t ht
    apply hvalid
    simp only [Spec.labelValues, List.mem_append, List.mem_flatMap]
    exact Or.inl (Or.inl (Or.inr ⟨m, hm, ht⟩))
  have hD : ∀ m ∈ sys.downstreams, ∀ t ∈
      [m.LocalHostgroup, m.RemoteHostgroup, m.LocalAddress, m.RemoteAddress, m.Port,
        m.Protocol, m.ProcessName], lib.ValidString t = true := by
    intro m hm t ht
    apply hvalid
    simp only [Spec.labelValues, List.mem_append, List.mem_flatMap]
    exact Or.inl (Or.inr ⟨m, hm, ht⟩)
  have hP : ∀ m ∈ sys.serverProcesses, ∀ t ∈
      [GoString.ofString sys.localInventory.Hostgroup, m.Bind, m.Name, m.Port],
      lib.ValidString t = true := by
    intro m hm t ht
    apply hvalid
    simp only [Spec.labelValues, List.mem_append, List.mem_flatMap]
    exact Or.inr ⟨m, hm, ht⟩
  unfold Update
  simp only
  rw [sendEach_const lib (NewNetworkDependencyCollector lib ns).traffic
    prometheus.ValueType.GaugeValue (fun m : darkstat.Metric F => m.Bandwidth)
    (fun m => [GoString.ofString m.LocalHostgroup, GoString.ofString m.Direction,
      GoString.ofString m.RemoteHostgroup, GoString.ofString m.RemoteIPAddr,
      GoString.ofString m.LocalDomain, GoString.ofString m.RemoteDomain])
    e1 (fun _ => rfl) _ hT]
  simp only
  rw [sendEach_const lib (NewNetworkDependencyCollector lib ns).ebpfTraffic
    prometheus.ValueType.GaugeValue (fun m : ebpf.Metric F => m.Bandwidth)
    (fun m => [m.LocalHostgroup, m.Direction, m.RemoteHostgroup, m.RemoteIPAddr, m.LocalDomain,
      m.RemoteDomain]) e2 (fun _ => rfl) _ hE]
  simp only
  rw [sendEach_const lib (NewNetworkDependencyCollector lib ns).upstream
    prometheus.ValueType.GaugeValue (fun _ : socketstat.Connections => lib.one)
    (fun m => [m.LocalHostgroup, m.RemoteHostgroup, m.LocalAddress, m.RemoteAddress, m.Port,
      m.Protocol, m.ProcessName]) e3 (fun _ => rfl) _ hU]
  simp only
  rw [sendEach_const lib (NewNetworkDependencyCollector lib ns).downstream
    prometheus.ValueType.GaugeValue (fun _ : socketstat.Connections => lib.one)
    (fun m => [m.LocalHostgroup, m.RemoteHostgroup, m.LocalAddress, m.RemoteAddress, m.Port,
      m.Protocol, m.ProcessName]) e4 (fun _ => rfl) _ hD]
  simp only
  rw [sendEach_const lib (NewNetworkDependencyCollector lib ns).serverProcesses
    prometheus.ValueType.GaugeValue (fun _ : socketstat.Process => lib.one)
    (fun m => [GoString.ofString sys.localInventory.Hostgroup, m.Bind, m.Name, m.Port])
    e5 (fun _ => rfl) _ hP]

/-- Keeping the records of one descriptor from a run of records that all have the same
descriptor keeps the whole run or nothing. -/
theorem filter_desc_map {α F : Type} (d e : prometheus.Desc) (xs : List α)
    (f : α → prometheus.Metric F) (hf : ∀ x, (f x).desc = e) :
    (xs.map f).filter (fun r => decide (r.desc = d)) = if e = d then xs.map f else [] := by
  induction xs with
  | nil => simp
  | cons x rest ih =>
    by_cases hed : e = d
    · simp only [hed, if_true] at ih ⊢
      simp [List.filter_cons, hf, hed, ih]
    · simp only [hed, if_false] at ih ⊢
      simp [List.filter_cons, hf, hed, ih]

/-- The five descriptors of the collector are pairwise different. -/
theorem descs_distinct {IP F : Type} (lib : Lib IP F) (ns : String) :
    (NewNetworkDependencyCollector lib ns).traffic
      ≠ (NewNetworkDependencyCollector lib ns).ebpfTraffic ∧
    (NewNetworkDependencyCollector lib ns).traffic
      ≠ (NewNetworkDependencyCollector lib ns).upstream ∧
    (NewNetworkDependencyCollector lib ns).traffic
      ≠ (NewNetworkDependencyCollector lib ns).downstream ∧
    (NewNetworkDependencyCollector lib ns).traffic
      ≠ (NewNetworkDependencyCollector lib ns).serverProcesses ∧
    (NewNetworkDependencyCollector lib ns).ebpfTraffic
      ≠ (NewNetworkDependencyCollector lib ns).upstream ∧
    (NewNetworkDependencyCollector lib ns).ebpfTraffic
      ≠ (NewNetworkDependencyCollector lib ns).downstream ∧
    (NewNetworkDependencyCollector lib ns).ebpfTraffic
      ≠ (NewNetworkDependencyCollector lib ns).serverProcesses ∧
    (NewNetworkDependencyCollector lib ns).upstream
      ≠ (NewNetworkDependencyCollector lib ns).downstream ∧
    (NewNetworkDependencyCollector lib ns).upstream
      ≠ (NewNetworkDependencyCollector lib ns).serverProcesses ∧
    (NewNetworkDependencyCollector lib ns).downstream
      ≠ (NewNetworkDependencyCollector lib ns).serverProcesses := by
  simp [NewNetworkDependencyCollector, prometheus.NewDesc]

/-- Read-only calls leave the system state as it is. -/
theorem run_reads {IP F : Type} (lib : Lib IP F) (c : networkDependencyCollector)
    (sys : System F) (bs : List Bool) :
    run lib c sys (Spec.reads bs : List (Call IP)) = sys := by
  induction bs with
  | nil => rfl
  | cons b rest ih =>
    cases b
    · simpa [Spec.reads, run, step] using ih
    · simpa [Spec.reads, run, step] using ih

/-- C8, as stated, fails: with descriptors that carry no error, a snapshot holding a listening
process whose name is the two bytes FF FE, which are not valid UTF-8, makes `Update` panic in
`MustNewConstMetric`; five records have been sent by then, for the seven elements of the
snapshots, and the call does not return. -/
theorem C8_invalid_label_value_panics :
    Spec.descriptorsValid (NewNetworkDependencyCollector exampleLib "planet") ∧
    (darkstat.Get Example.systemWithBadName.darkstat).length
        + Example.systemWithBadName.ebpf.length + Example.systemWithBadName.upstreams.length
        + Example.systemWithBadName.downstreams.length
        + Example.systemWithBadName.serverProcesses.length = 7 ∧
    (Update exampleLib (NewNetworkDependencyCollector exampleLib "planet")
        Example.systemWithBadName []).2 = Go.panic ∧
    (Update exampleLib (NewNetworkDependencyCollector exampleLib "planet")
        Example.systemWithBadName []).1.length = 5 ∧
    ¬ ∃ sent, Update exampleLib (NewNetworkDependencyCollector exampleLib "planet")
        Example.systemWithBadName [] = (sent, Go.ret ()) := by
  have hp : (Update exampleLib (NewNetworkDependencyCollector exampleLib "planet")
      Example.systemWithBadName []).2 = Go.panic := by decide
  refine ⟨by decide, by decide, hp, by decide, ?_⟩
  rintro ⟨sent, h⟩
  rw [h] at hp
  exact Go.noConfusion hp

/-- C8, amended: for every state of the five sources (traffic, eBPF traffic, upstreams,
downstreams, server processes) and every local identity in which every string that becomes a
label value is valid UTF-8, the five descriptors carrying no error, `Update` returns no error
and sends exactly one record per snapshot element. Seen by the reader, a traffic or eBPF
record carries the sample's six fields as the labels local_hostgroup, direction,
remote_hostgroup, remote_ip, local_domain, remote_domain with value Bandwidth; an upstream or
downstream record carries the edge's seven fields with value 1; a server-process record
carries the hostgroup of the local identity with bind, process name and port and value 1. The
records of each family follow the order of its snapshot, and every record has as many label
values as its family declares labels. -/
theorem C8_update_sends_one_record_per_element {IP F : Type} (lib : Lib IP F) (ns : String)
    (sys : System F)
    (hdesc : Spec.descriptorsValid (NewNetworkDependencyCollector lib ns))
    (hvalid : ∀ t ∈ Spec.labelValues sys, lib.ValidString t = true) :
    ∃ sent : List (prometheus.Metric F),
      Update lib (NewNetworkDependencyCollector lib ns) sys [] = (sent, Go.ret ()) ∧
      sent.map Spec.view
        = (darkstat.Get sys.darkstat).map (Spec.trafficRecord ns)
          ++ sys.ebpf.map (Spec.ebpfRecord ns)
          ++ sys.upstreams.map (Spec.edgeRecord lib.one ns "upstream")
          ++ sys.downstreams.map (Spec.edgeRecord lib.one ns "downstream")
          ++ sys.serverProcesses.map
              (Spec.processRecord lib.one ns sys.localInventory.Hostgroup) ∧
      sent.length
        = (darkstat.Get sys.darkstat).length + sys.ebpf.length + sys.upstreams.length
          + sys.downstreams.length + sys.serverProcesses.length ∧
      (sent.filter (fun r =>
          decide (r.desc = (NewNetworkDependencyCollector lib ns).traffic))).map Spec.view
        = (darkstat.Get sys.darkstat).map (Spec.trafficRecord ns) ∧
      (sent.filter (fun r =>
          decide (r.desc = (NewNetworkDependencyCollector lib ns).ebpfTraffic))).map Spec.view
        = sys.ebpf.map (Spec.ebpfRecord ns) ∧
      (sent.filter (fun r =>
          decide (r.desc = (NewNetworkDependencyCollector lib ns).upstream))).map Spec.view
        = sys.upstreams.map (Spec.edgeRecord lib.one ns "upstream") ∧
      (sent.filter (fun r =>
          decide (r.desc = (NewNetworkDependencyCollector lib ns).downstream))).map Spec.view
        = sys.downstreams.map (Spec.edgeRecord lib.one ns "downstream") ∧
      (sent.filter (fun r =>
          decide (r.desc = (NewNetworkDependencyCollector lib ns).serverProcesses))).map
          Spec.view
        = sys.serverProcesses.map
            (Spec.processRecord lib.one ns sys.localInventory.Hostgroup) ∧
      ∀ r ∈ sent, r.labelValues.length = r.desc.variableLabels.length := by
  obtain ⟨d1, d2, d3, d4, d5, d6, d7, d8, d9, d10⟩ := descs_distinct lib ns
  refine ⟨_, Update_new lib ns sys [] hdesc hvalid, ?_, ?_, ?_, ?_, ?_, ?_, ?_, ?_⟩
  · simp only [List.nil_append, List.map_append, List.map_map]
    rfl
  · simp only [List.nil_append, List.length_append, List.length_map]
  · simp only [List.nil_append, List.filter_append]
    rw [filter_desc_map _ (NewNetworkDependencyCollector lib ns).traffic,
      filter_desc_map _ (NewNetworkDependencyCollector lib ns).ebpfTraffic,
      filter_desc_map _ (NewNetworkDependencyCollector lib ns).upstream,
      filter_desc_map _ (NewNetworkDependencyCollector lib ns).downstream,
      filter_desc_map _ (NewNetworkDependencyCollector lib ns).serverProcesses]
    rotate_left
    iterate 5 exact fun _ => rfl
    simp only [d1.symm, d2.symm, d3.symm, d4.symm, if_true, if_false, List.append_nil,
      List.nil_append, List.map_map]
    rfl
  · simp only [List.nil_append, List.filter_append]
    rw [filter_desc_map _ (NewNetworkDependencyCollector lib ns).traffic,
      filter_desc_map _ (NewNetworkDependencyCollector lib ns).ebpfTraffic,
      filter_desc_map _ (NewNetworkDependencyCollector lib ns).upstream,
      filter_desc_map _ (NewNetworkDependencyCollector lib ns).downstream,
      filter_desc_map _ (NewNetworkDependencyCollector lib ns).serverProcesses]
    rotate_left
    iterate 5 exact fun _ => rfl
    simp only [d1, d5.symm, d6.symm, d7.symm, if_true, if_false, List.append_nil,
      List.nil_append, List.map_map]
    rfl
  · simp only [List.nil_append, List.filter_append]
    rw [filter_desc_map _ (NewNetworkDependencyCollector lib ns).traffic,
      filter_desc_map _ (NewNetworkDependencyCollector lib ns).ebpfTraffic,
      filter_desc_map _ (NewNetworkDependencyCollector lib ns).upstream,
      filter_desc_map _ (NewNetworkDependencyCollector lib ns).downstream,
      filter_desc_map _ (NewNetworkDependencyCollector lib ns).serverProcesses]
    rotate_left
    iterate 5 exact fun _ => rfl
    simp only [d2, d5, d8.symm, d9.symm, if_true, if_false, List.append_nil,
      List.nil_append, List.map_map]
    rfl
  · simp only [List.nil_append, List.filter_append]
    rw [filter_desc_map _ (NewNetworkDependencyCollector lib ns).traffic,
      filter_desc_map _ (NewNetworkDependencyCollector lib ns).ebpfTraffic,
      filter_desc_map _ (NewNetworkDependencyCollector lib ns).upstream,
      filter_desc_map _ (NewNetworkDependencyCollector lib ns).downstream,
      filter_desc_map _ (NewNetworkDependencyCollector lib ns).serverProcesses]
    rotate_left
    iterate 5 exact fun _ => rfl
    simp only [d3, d6, d8, d10.symm, if_true, if_false, List.append_nil,
      List.nil_append, List.map_map]
    rfl
  · simp only [List.nil_append, List.filter_append]
    rw [filter_desc_map _ (NewNetworkDependencyCollector lib ns).traffic,
      filter_desc_map _ (NewNetworkDependencyCollector lib ns).ebpfTraffic,
      filter_desc_map _ (NewNetworkDependencyCollector lib ns).upstream,
      filter_desc_map _ (NewNetworkDependencyCollector lib ns).downstream,
      filter_desc_map _ (NewNetworkDependencyCollector lib ns).serverProcesses]
    rotate_left
    iterate 5 exact fun _ => rfl
    simp only [d4, d7, d9, d10, if_true, if_false, List.append_nil,
      List.nil_append, List.map_map]
    rfl
  · intro r hr
    simp only [List.nil_append, List.mem_append, List.mem_map] at hr
    rcases hr with (((⟨m, _, rfl⟩ | ⟨m, _, rfl⟩) | ⟨m, _, rfl⟩) | ⟨m, _, rfl⟩) | ⟨m, _, rfl⟩ <;> rfl

/-- C8, witness: the namespace `planet` and a system with one element in each of the five
snapshots, every string of which is valid UTF-8. -/
theorem C8_update_sends_one_record_per_element_witness :
    (Spec.descriptorsValid (NewNetworkDependencyCollector exampleLib "planet") ∧
      ∀ t ∈ Spec.labelValues Example.validSystem, exampleLib.ValidString t = true) ∧
    ∃ sent : List (prometheus.Metric Dec),
      Update exampleLib (NewNetworkDependencyCollector exampleLib "planet") Example.validSystem []
        = (sent, Go.ret ()) ∧
      sent.map Spec.view
        = (darkstat.Get Example.validSystem.darkstat).map (Spec.trafficRecord "planet")
          ++ Example.validSystem.ebpf.map (Spec.ebpfRecord "planet")
          ++ Example.validSystem.upstreams.map
              (Spec.edgeRecord exampleLib.one "planet" "upstream")
          ++ Example.validSystem.downstreams.map
              (Spec.edgeRecord exampleLib.one "planet" "downstream")
          ++ Example.validSystem.serverProcesses.map
              (Spec.processRecord exampleLib.one "planet"
                Example.validSystem.localInventory.Hostgroup) ∧
      sent.length
        = (darkstat.Get Example.validSystem.darkstat).length + Example.validSystem.ebpf.length
          + Example.validSystem.upstreams.length + Example.validSystem.downstreams.length
          + Example.validSystem.serverProcesses.length ∧
      (sent.filter (fun r =>
          decide (r.desc = (NewNetworkDependencyCollector exampleLib "planet").traffic))).map
          Spec.view
        = (darkstat.Get Example.validSystem.darkstat).map (Spec.trafficRecord "planet") ∧
      (sent.filter (fun r =>
          decide (r.desc = (NewNetworkDependencyCollector exampleLib "planet").ebpfTraffic))).map
          Spec.view
        = Example.validSystem.ebpf.map (Spec.ebpfRecord "planet") ∧
      (sent.filter (fun r =>
          decide (r.desc = (NewNetworkDependencyCollector exampleLib "planet").upstream))).map
          Spec.view
        = Example.validSystem.upstreams.map
            (Spec.edgeRecord exampleLib.one "planet" "upstream") ∧
      (sent.filter (fun r =>
          decide (r.desc = (NewNetworkDependencyCollector exampleLib "planet").downstream))).map
          Spec.view
        = Example.validSystem.downstreams.map
            (Spec.edgeRecord exampleLib.one "planet" "downstream") ∧
      (sent.filter (fun r =>
          decide (r.desc
            = (NewNetworkDependencyCollector exampleLib "planet").serverProcesses))).map
          Spec.view
        = Example.validSystem.serverProcesses.map
            (Spec.processRecord exampleLib.one "planet"
              Example.validSystem.localInventory.Hostgroup) ∧
      ∀ r ∈ sent, r.labelValues.length = r.desc.variableLabels.length :=
  ⟨⟨by decide, by decide⟩,
    C8_update_sends_one_record_per_element exampleLib "planet" Example.validSystem
      (by decide) (by decide)⟩

/-- C9: `Update` changes no state, so two `Update` calls with no `Collect` between them, one
right after the other or separated by any number of `Get` and `Update` calls, send identical
sequences of records (same families, same label values, same metric values) and return the
same result. -/
theorem C9_update_idempotent {IP F : Type} (lib : Lib IP F) (c : networkDependencyCollector)
    (sys : System F) (bs : List Bool) :
    (step lib c sys (Call.Update : Call IP)).1 = sys ∧
    (step lib c (step lib c sys (Call.Update : Call IP)).1 (Call.Update : Call IP)).2
      = (step lib c sys (Call.Update : Call IP)).2 ∧
    (step lib c (run lib c sys (Spec.reads bs : List (Call IP))) (Call.Update : Call IP)).2
      = (step lib c sys (Call.Update : Call IP)).2 := by
  refine ⟨rfl, rfl, ?_⟩
  rw [run_reads]

end PlanetExporter
